import Mathlib

/-!
# OpenVG Go binding: colour lookup, gradient packing, polygons and image upload

A shallow embedding of the marshalling code of `openvg.go`.

Conventions of the embedding:
* a Go `string` is a Lean `String` (a sequence of Unicode code points, that is, valid UTF-8);
* a Go `uint8` is a `Nat` below 256, conversions to `uint8` are written `% 256`;
* `float32` values are elements of an arbitrary type `F`: the code only moves them around,
  except for the division by 255 in `makeramp`, which is taken as a parameter;
* a run that does not return (a run-time panic such as an index out of range, or a loop
  that never ends) is the result `none`;
* calls into the native library are recorded, in order, in a list of call records.
-/

namespace OpenVG

/-! ## Colours -/

/-- RGB defines the red, green, blue triple that makes up colors (three `uint8`). -/
structure RGB where
  Red : Nat
  Green : Nat
  Blue : Nat
deriving DecidableEq, Repr

/-- Entries 1 to 30 of the table `colornames`, in source order. -/
def colornames1 : List (String × RGB) := [
("aliceblue", ⟨240, 248, 255⟩),
  ("antiquewhite", ⟨250, 235, 215⟩),
  ("aqua", ⟨0, 255, 255⟩),
  ("aquamarine", ⟨127, 255, 212⟩),
  ("azure", ⟨240, 255, 255⟩),
  ("beige", ⟨245, 245, 220⟩),
  ("bisque", ⟨255, 228, 196⟩),
  ("black", ⟨0, 0, 0⟩),
  ("blanchedalmond", ⟨255, 235, 205⟩),
  ("blue", ⟨0, 0, 255⟩),
  ("blueviolet", ⟨138, 43, 226⟩),
  ("brown", ⟨165, 42, 42⟩),
  ("burlywood", ⟨222, 184, 135⟩),
  ("cadetblue", ⟨95, 158, 160⟩),
  ("chartreuse", ⟨127, 255, 0⟩),
  ("chocolate", ⟨210, 105, 30⟩),
  ("coral", ⟨255, 127, 80⟩),
  ("cornflowerblue", ⟨100, 149, 237⟩),
  ("cornsilk", ⟨255, 248, 220⟩),
  ("crimson", ⟨220, 20, 60⟩),
  ("cyan", ⟨0, 255, 255⟩),
  ("darkblue", ⟨0, 0, 139⟩),
  ("darkcyan", ⟨0, 139, 139⟩),
  ("darkgoldenrod", ⟨184, 134, 11⟩),
  ("darkgray", ⟨169, 169, 169⟩),
  ("darkgreen", ⟨0, 100, 0⟩),
  ("darkgrey", ⟨169, 169, 169⟩),
  ("darkkhaki", ⟨189, 183, 107⟩),
  ("darkmagenta", ⟨139, 0, 139⟩),
  ("darkolivegreen", ⟨85, 107, 47⟩)
]

/-- Entries 31 to 60 of the table `colornames`, in source order. -/
def colornames2 : List (String × RGB) := [
  ("darkorange", ⟨255, 140, 0⟩),
  ("darkorchid", ⟨153, 50, 204⟩),
  ("darkred", ⟨139, 0, 0⟩),
  ("darksalmon", ⟨233, 150, 122⟩),
  ("darkseagreen", ⟨143, 188, 143⟩),
  ("darkslateblue", ⟨72, 61, 139⟩),
  ("darkslategray", ⟨47, 79, 79⟩),
  ("darkslategrey", ⟨47, 79, 79⟩),
  ("darkturquoise", ⟨0, 206, 209⟩),
  ("darkviolet", ⟨148, 0, 211⟩),
  ("deeppink", ⟨255, 20, 147⟩),
  ("deepskyblue", ⟨0, 191, 255⟩),
  ("dimgray", ⟨105, 105, 105⟩),
  ("dimgrey", ⟨105, 105, 105⟩),
  ("dodgerblue", ⟨30, 144, 255⟩),
  ("firebrick", ⟨178, 34, 34⟩),
  ("floralwhite", ⟨255, 250, 240⟩),
  ("forestgreen", ⟨34, 139, 34⟩),
  ("fuchsia", ⟨255, 0, 255⟩),
  ("gainsboro", ⟨220, 220, 220⟩),
  ("ghostwhite", ⟨248, 248, 255⟩),
  ("gold", ⟨255, 215, 0⟩),
  ("goldenrod", ⟨218, 165, 32⟩),
  ("gray", ⟨128, 128, 128⟩),
  ("green", ⟨0, 128, 0⟩),
  ("greenyellow", ⟨173, 255, 47⟩),
  ("grey", ⟨128, 128, 128⟩),
  ("honeydew", ⟨240, 255, 240⟩),
  ("hotpink", ⟨255, 105, 180⟩),
  ("indianred", ⟨205, 92, 92⟩)
]

/-- Entries 61 to 90 of the table `colornames`, in source order. -/
def colornames3 : List (String × RGB) := [
  ("indigo", ⟨75, 0, 130⟩),
  ("ivory", ⟨255, 255, 240⟩),
  ("khaki", ⟨240, 230, 140⟩),
  ("lavender", ⟨230, 230, 250⟩),
  ("lavenderblush", ⟨255, 240, 245⟩),
  ("lawngreen", ⟨124, 252, 0⟩),
  ("lemonchiffon", ⟨255, 250, 205⟩),
  ("lightblue", ⟨173, 216, 230⟩),
  ("lightcoral", ⟨240, 128, 128⟩),
  ("lightcyan", ⟨224, 255, 255⟩),
  ("lightgoldenrodyellow", ⟨250, 250, 210⟩),
  ("lightgray", ⟨211, 211, 211⟩),
  ("lightgreen", ⟨144, 238, 144⟩),
  ("lightgrey", ⟨211, 211, 211⟩),
  ("lightpink", ⟨255, 182, 193⟩),
  ("lightsalmon", ⟨255, 160, 122⟩),
  ("lightseagreen", ⟨32, 178, 170⟩),
  ("lightskyblue", ⟨135, 206, 250⟩),
  ("lightslategray", ⟨119, 136, 153⟩),
  ("lightslategrey", ⟨119, 136, 153⟩),
  ("lightsteelblue", ⟨176, 196, 222⟩),
  ("lightyellow", ⟨255, 255, 224⟩),
  ("lime", ⟨0, 255, 0⟩),
  ("limegreen", ⟨50, 205, 50⟩),
  ("linen", ⟨250, 240, 230⟩),
  ("magenta", ⟨255, 0, 255⟩),
  ("maroon", ⟨128, 0, 0⟩),
  ("mediumaquamarine", ⟨102, 205, 170⟩),
  ("mediumblue", ⟨0, 0, 205⟩),
  ("mediumorchid", ⟨186, 85, 211⟩)
]

/-- Entries 91 to 120 of the table `colornames`, in source order. -/
def colornames4 : List (String × RGB) := [
  ("mediumpurple", ⟨147, 112, 219⟩),
  ("mediumseagreen", ⟨60, 179, 113⟩),
  ("mediumslateblue", ⟨123, 104, 238⟩),
  ("mediumspringgreen", ⟨0, 250, 154⟩),
  ("mediumturquoise", ⟨72, 209, 204⟩),
  ("mediumvioletred", ⟨199, 21, 133⟩),
  ("midnightblue", ⟨25, 25, 112⟩),
  ("mintcream", ⟨245, 255, 250⟩),
  ("mistyrose", ⟨255, 228, 225⟩),
  ("moccasin", ⟨255, 228, 181⟩),
  ("navajowhite", ⟨255, 222, 173⟩),
  ("navy", ⟨0, 0, 128⟩),
  ("oldlace", ⟨253, 245, 230⟩),
  ("olive", ⟨128, 128, 0⟩),
  ("olivedrab", ⟨107, 142, 35⟩),
  ("orange", ⟨255, 165, 0⟩),
  ("orangered", ⟨255, 69, 0⟩),
  ("orchid", ⟨218, 112, 214⟩),
  ("palegoldenrod", ⟨238, 232, 170⟩),
  ("palegreen", ⟨152, 251, 152⟩),
  ("paleturquoise", ⟨175, 238, 238⟩),
  ("palevioletred", ⟨219, 112, 147⟩),
  ("papayawhip", ⟨255, 239, 213⟩),
  ("peachpuff", ⟨255, 218, 185⟩),
  ("peru", ⟨205, 133, 63⟩),
  ("pink", ⟨255, 192, 203⟩),
  ("plum", ⟨221, 160, 221⟩),
  ("powderblue", ⟨176, 224, 230⟩),
  ("purple", ⟨128, 0, 128⟩),
  ("red", ⟨255, 0, 0⟩)
]

/-- Entries 121 to 147 of the table `colornames`, in source order. -/
def colornames5 : List (String × RGB) := [
  ("rosybrown", ⟨188, 143, 143⟩),
  ("royalblue", ⟨65, 105, 225⟩),
  ("saddlebrown", ⟨139, 69, 19⟩),
  ("salmon", ⟨250, 128, 114⟩),
  ("sandybrown", ⟨244, 164, 96⟩),
  ("seagreen", ⟨46, 139, 87⟩),
  ("seashell", ⟨255, 245, 238⟩),
  ("sienna", ⟨160, 82, 45⟩),
  ("silver", ⟨192, 192, 192⟩),
  ("skyblue", ⟨135, 206, 235⟩),
  ("slateblue", ⟨106, 90, 205⟩),
  ("slategray", ⟨112, 128, 144⟩),
  ("slategrey", ⟨112, 128, 144⟩),
  ("snow", ⟨255, 250, 250⟩),
  ("springgreen", ⟨0, 255, 127⟩),
  ("steelblue", ⟨70, 130, 180⟩),
  ("tan", ⟨210, 180, 140⟩),
  ("teal", ⟨0, 128, 128⟩),
  ("thistle", ⟨216, 191, 216⟩),
  ("tomato", ⟨255, 99, 71⟩),
  ("turquoise", ⟨64, 224, 208⟩),
  ("violet", ⟨238, 130, 238⟩),
  ("wheat", ⟨245, 222, 179⟩),
  ("white", ⟨255, 255, 255⟩),
  ("whitesmoke", ⟨245, 245, 245⟩),
  ("yellow", ⟨255, 255, 0⟩),
  ("yellowgreen", ⟨154, 205, 50⟩)
]

/-- The table `colornames`: SVG color names and their RGB triples, in source order.
A Go map literal has pairwise distinct keys, so looking a key up is finding its entry. -/
def colornames : List (String × RGB) :=
  colornames1 ++ colornames2 ++ colornames3 ++ colornames4 ++ colornames5

/-! ## The scanner behind `fmt.Sscanf(s[3:], "(%d,%d,%d)", &r, &g, &b)`

`colorlookup` hands the text after `rgb` to the standard scanner. The part of
`fmt/scan.go` that this one format with three `*uint8` operands exercises is
transcribed here: literal matching (`advance`), blank skipping (`SkipSpace`), and
unsigned number scanning (`scanNumber`, `strconv.ParseUint`, the 8-bit overflow test).
The input is read as a sequence of code points. The scanner's cap of 2^30 characters read
for one operand is not part of the transcription: it only matters for inputs longer than
that. -/

/-- The errors the scanner can raise on this format. -/
inductive ScanError where
  | EOF
  | unexpectedEOF
  | unexpectedNewline
  | inputDoesNotMatchFormat
  | expectedInteger
  | valueOutOfRange
  | unsignedIntegerOverflow
deriving DecidableEq, Repr

/-- The scanner's `isSpace`: the Unicode White_Space code points of its table;
code points from 2^16 on are never blanks. -/
def isSpace (r : Char) : Bool :=
  let n := r.toNat
  if n ≥ 65536 then false
  else (0x0009 ≤ n && n ≤ 0x000d) || n == 0x0020 || n == 0x0085 || n == 0x00a0
    || n == 0x1680 || (0x2000 ≤ n && n ≤ 0x200a) || (0x2028 ≤ n && n ≤ 0x2029)
    || n == 0x202f || n == 0x205f || n == 0x3000

/-- The scanner's `SkipSpace` with `nlIsSpace = false` (the `Sscanf` setting): blanks are
consumed, a carriage return directly before a newline is consumed, a newline is an error,
and the first other character is left in the input. -/
def SkipSpace : List Char → Except ScanError (List Char)
  | [] => .ok []
  | r :: rest =>
    if r = '\r' ∧ rest.head? = some '\n' then SkipSpace rest
    else if r = '\n' then .error .unexpectedNewline
    else if !isSpace r then .ok (r :: rest)
    else SkipSpace rest

/-- Membership in `decimalDigits = "0123456789"`, the digit set of the verb `%d`. -/
def isDecimalDigit (r : Char) : Bool :=
  '0'.toNat ≤ r.toNat && r.toNat ≤ '9'.toNat

/-- The scanner's `scanNumber(digits, false)`: end of input is `io.EOF`, a first character
that is not a digit is "expected integer", otherwise the longest run of digits is the token. -/
def scanNumber : List Char → Except ScanError (List Char × List Char)
  | [] => .error .EOF
  | r :: rest =>
    if isDecimalDigit r then .ok (r :: rest.takeWhile isDecimalDigit, rest.dropWhile isDecimalDigit)
    else .error .expectedInteger

/-- Value of a digit token read in base 10, most significant digit first. -/
def digitsValue (tok : List Char) : Nat :=
  tok.foldl (fun n c => 10 * n + (c.toNat - '0'.toNat)) 0

/-- The call `strconv.ParseUint(tok, 10, 64)` on a token of decimal digits: the value, or a
range error when it does not fit 64 bits. -/
def ParseUint (tok : List Char) : Except ScanError Nat :=
  if digitsValue tok < 2 ^ 64 then .ok (digitsValue tok) else .error .valueOutOfRange

/-- The scanner's `scanUint('d', bitSize)`: skip blanks, fail at end of input, scan the
token, convert it, and reject a value that does not survive truncation to `bitSize` bits. -/
def scanUint (bitSize : Nat) (input : List Char) : Except ScanError (Nat × List Char) :=
  match SkipSpace input with
  | .error e => .error e
  | .ok [] => .error .EOF
  | .ok (r :: rest) =>
    match scanNumber (r :: rest) with
    | .error e => .error e
    | .ok (tok, rest1) =>
      match ParseUint tok with
      | .error e => .error e
      | .ok i => if i % 2 ^ bitSize ≠ i then .error .unsignedIntegerOverflow else .ok (i, rest1)

/-- One `%d` item of `doScanf` with a `*uint8` operand: the blanks are skipped before
`scanOne` is entered, then `scanUint(verb, 8)` runs. -/
def scanOne (input : List Char) : Except ScanError (Nat × List Char) :=
  match SkipSpace input with
  | .error e => .error e
  | .ok input1 => scanUint 8 input1

/-- The scanner's `advance` on one literal character of the format: the next input character
must be that character; end of input is "unexpected EOF", another character is
"input does not match format". -/
def advance (fmtc : Char) : List Char → Except ScanError (List Char)
  | [] => .error .unexpectedEOF
  | inputc :: rest => if fmtc = inputc then .ok rest else .error .inputDoesNotMatchFormat

/-- The call `fmt.Sscanf(input, "(%d,%d,%d)", &c.Red, &c.Green, &c.Blue)`: the number of
operands stored, the error if any, and the operands after the call. An operand is written as
soon as its number is scanned; what follows the closing parenthesis is not looked at. -/
def Sscanf (input : List Char) (c : RGB) : Nat × Option ScanError × RGB :=
  match advance '(' input with
  | .error e => (0, some e, c)
  | .ok s1 =>
    match scanOne s1 with
    | .error e => (0, some e, c)
    | .ok (r, s2) =>
      let c1 : RGB := { c with Red := r % 256 }
      match advance ',' s2 with
      | .error e => (1, some e, c1)
      | .ok s3 =>
        match scanOne s3 with
        | .error e => (1, some e, c1)
        | .ok (g, s4) =>
          let c2 : RGB := { c1 with Green := g % 256 }
          match advance ',' s4 with
          | .error e => (2, some e, c2)
          | .ok s5 =>
            match scanOne s5 with
            | .error e => (2, some e, c2)
            | .ok (b, s6) =>
              let c3 : RGB := { c2 with Blue := b % 256 }
              match advance ')' s6 with
              | .error e => (3, some e, c3)
              | .ok _ => (3, none, c3)

/-- The test `strings.HasPrefix(s, p)`. -/
def HasPrefix (s p : String) : Bool :=
  p.data.isPrefixOf s.data

/-- Function `colorlookup`: the RGB triple of a named color or of an `rgb(r,g,b)` string;
black on error. The slice `s[3:]` drops the three bytes `rgb`. -/
def colorlookup (s : String) : RGB :=
  let rcolor : RGB := ⟨0, 0, 0⟩
  match colornames.lookup s with
  | some color => color
  | none =>
    if HasPrefix s "rgb(" then
      match Sscanf (s.data.drop 3) rcolor with
      | (n, err, rcolor1) =>
        if n ≠ 3 || err.isSome then ⟨0, 0, 0⟩ else rcolor1
    else rcolor


/-! ## Shapes of `rgb(...)` strings

Predicates over strings used to state what the scanner accepts. They describe text, they are
not part of the program. -/

/-- A blank that the scanner passes over in front of a number: a space character other than
the newline. -/
def isBlank (r : Char) : Bool :=
  isSpace r && r != '\n'

/-- A channel `d` with value `v`: a non-empty run of decimal digits whose value `v` is at
most 255 (leading zeros allowed). -/
def IsChannel (d : List Char) (v : Nat) : Prop :=
  d ≠ [] ∧ (∀ c ∈ d, isDecimalDigit c = true) ∧ digitsValue d = v ∧ v ≤ 255

/-- The text after `rgb` has the shape `(` B r `,` B g `,` B b `)` T, where each B is a
possibly empty run of blanks, `r`, `g`, `b` are channels, and T is any trailing text. -/
def ScanForm (input : List Char) (r g b : Nat) : Prop :=
  ∃ sp1 d1 sp2 d2 sp3 d3 rest,
    input = '(' :: (sp1 ++ (d1 ++ ',' :: (sp2 ++ (d2 ++ ',' :: (sp3 ++ (d3 ++ ')' :: rest))))))
    ∧ (∀ c ∈ sp1, isBlank c = true) ∧ (∀ c ∈ sp2, isBlank c = true)
    ∧ (∀ c ∈ sp3, isBlank c = true)
    ∧ IsChannel d1 r ∧ IsChannel d2 g ∧ IsChannel d3 b

/-- The string is `rgb` followed by text of the shape `ScanForm`. -/
def RgbForm (s : String) (r g b : Nat) : Prop :=
  ∃ t, s.data = 'r' :: 'g' :: 'b' :: t ∧ ScanForm t r g b

/-- The string is exactly `rgb(` r `,` g `,` b `)` with three channels: no blanks, nothing
after the closing parenthesis. -/
def ExactRgb (s : String) : Prop :=
  ∃ d1 d2 d3 r g b, IsChannel d1 r ∧ IsChannel d2 g ∧ IsChannel d3 b
    ∧ s.data = 'r' :: 'g' :: 'b' :: '(' :: (d1 ++ ',' :: (d2 ++ ',' :: (d3 ++ [')'])))

/-! ## Machine integers and buffers

Lengths and indices of slices are mathematical integers: none of them overflows an `int`.
Image coordinates are Go `int`s, taken 64 bits wide, and the decrement of the row counter in
`NewImage` wraps like the machine operation. The fixed-width types wrap: `int32`, `C.int` and
`C.VGint` are 32-bit two's complement, `uint8` is reduction modulo 256. -/

/-- The least value of a Go `int` (64 bits). -/
def minInt : Int :=
  -2 ^ 63

/-- The greatest value of a Go `int` (64 bits). -/
def maxInt : Int :=
  2 ^ 63 - 1

/-- The number of values of a Go `int` (64 bits). -/
def intValues : Nat :=
  2 ^ 64

/-- The result of an arithmetic operation on Go `int`s: reduction to 64-bit two's
complement. -/
def wrapInt (n : Int) : Int :=
  (n + 2 ^ 63) % 2 ^ 64 - 2 ^ 63

/-- Conversion to a signed 32-bit integer (`int32`, `C.int`, `C.VGint`): two's complement
truncation. -/
def int32 (n : Int) : Int :=
  (n + 2 ^ 31) % 2 ^ 32 - 2 ^ 31

/-- Conversion to `uint8`: the low eight bits. -/
def uint8 (n : Nat) : Nat :=
  n % 256

/-- The indexed store `a[i] = v`: the updated slice, or `none` for the panic of an index out
of range. -/
def store {α : Type} (a : List α) (i : Nat) (v : α) : Option (List α) :=
  if i < a.length then some (a.set i v) else none

/-- The slice `make([]T, n)`: `n` zero values, or `none` for the panic of a negative length. -/
def make {α : Type} (zero : α) (n : Int) : Option (List α) :=
  if n < 0 then none else some (List.replicate n.toNat zero)

/-- The address `&a[0]` handed to the native library: the buffer it points to, or `none` for
the panic of indexing an empty slice. -/
def addrOfFirst {α : Type} (a : List α) : Option (List α) :=
  match a with
  | [] => none
  | x :: rest => some (x :: rest)

/-! ## Gradient stops -/

/-- The `float32` operations the packing code uses on values of the float type `F`: the zero
value, the conversion `float32(x)` of a `uint8`, the division, and the literal `255.0`. -/
structure Float32 (F : Type) where
  zero : F
  ofUint8 : Nat → F
  div : F → F → F
  lit255 : F

/-- Offcolor defines the offset, color and alpha values used in gradients: it embeds `RGB`. -/
structure Offcolor (F : Type) extends RGB where
  Offset : F
  Alpha : F

/-- The loop of `makeramp`: for `i` from its current value up to `len(r)`, store the five
values of stop `i` at `cs[j]`, ..., `cs[j+4]`. -/
def makerampLoop {F : Type} (ops : Float32 F) (r : List (Offcolor F)) (i : Nat) (cs : List F)
    (j : Nat) : Option (List F × Nat) :=
  if h : i < r.length then
    (store cs j r[i].Offset).bind fun cs1 =>
    (store cs1 (j + 1) (ops.div (ops.ofUint8 r[i].Red) ops.lit255)).bind fun cs2 =>
    (store cs2 (j + 2) (ops.div (ops.ofUint8 r[i].Green) ops.lit255)).bind fun cs3 =>
    (store cs3 (j + 3) (ops.div (ops.ofUint8 r[i].Blue) ops.lit255)).bind fun cs4 =>
    (store cs4 (j + 4) r[i].Alpha).bind fun cs5 =>
    makerampLoop ops r (i + 1) cs5 (j + 5)
  else some (cs, j)
termination_by r.length - i

/-- Function `makeramp`: prepares the color/stop vector. The result is the buffer behind the
returned pointer `&cs[0]` and the count `C.int(lr)`; `none` is a panic. -/
def makeramp {F : Type} (ops : Float32 F) (r : List (Offcolor F)) : Option (List F × Int) :=
  let lr := r.length
  let nr := lr * 5
  (make ops.zero nr).bind fun cs =>
  (makerampLoop ops r 0 cs 0).bind fun (cs1, _) =>
  (addrOfFirst cs1).bind fun p =>
  some (p, int32 lr)

/-! ## Polygons and polylines -/

/-- The loop of `poly`: copy `x[i]` and `y[i]` into `px[i]` and `py[i]` for `i` up to `size`.
Reading `y[i]` panics when `y` is shorter than `x`. -/
def polyLoop {F : Type} (x y : List F) (i : Nat) (px py : List F) : Option (List F × List F) :=
  if h : i < x.length then
    (store px i x[i]).bind fun px1 =>
    y[i]?.bind fun yi =>
    (store py i yi).bind fun py1 =>
    polyLoop x y (i + 1) px1 py1
  else some (px, py)
termination_by x.length - i

/-- Function `poly`: converts coordinate slices. The result is the two buffers behind the
returned pointers (`none` for a nil pointer) and the point count; the outer `none` is a
panic. -/
def poly {F : Type} (ops : Float32 F) (x y : List F) :
    Option (Option (List F) × Option (List F) × Int) :=
  let size := x.length
  if size ≠ y.length then some (none, none, 0)
  else
    (make ops.zero size).bind fun px =>
    (make ops.zero size).bind fun py =>
    (polyLoop x y 0 px py).bind fun (px1, py1) =>
    (addrOfFirst px1).bind fun p =>
    (addrOfFirst py1).bind fun q =>
    some (some p, some q, int32 size)

/-- A call into the native drawing library made by `Polygon` or `Polyline`. -/
inductive DrawCall (F : Type) where
  | Polygon (px py : Option (List F)) (np : Int)
  | Polyline (px py : Option (List F)) (np : Int)

/-- Function `Polygon`: draws a polygon with coordinates in x, y. The result is the list of
native calls made; `none` is a panic. -/
def Polygon {F : Type} (ops : Float32 F) (x y : List F) : Option (List (DrawCall F)) :=
  (poly ops x y).bind fun (px, py, np) =>
  if np > 0 then some [DrawCall.Polygon px py np] else some []

/-- Function `Polyline`: draws a polyline with coordinates in x, y. The result is the list of
native calls made; `none` is a panic. -/
def Polyline {F : Type} (ops : Float32 F) (x y : List F) : Option (List (DrawCall F)) :=
  (poly ops x y).bind fun (px, py, np) =>
  if np > 0 then some [DrawCall.Polyline px py np] else some []

/-! ## Images

The package `image` of the standard library, as far as `NewImage` looks at it. -/

namespace image

/-- A point `image.Point`. -/
structure Point where
  X : Int
  Y : Int

/-- A rectangle `image.Rectangle`: it contains the points with `Min.X ≤ X < Max.X` and
`Min.Y ≤ Y < Max.Y`. -/
structure Rectangle where
  Min : Point
  Max : Point

/-- Method `Dx`: the width of the rectangle. -/
def Rectangle.Dx (r : Rectangle) : Int :=
  r.Max.X - r.Min.X

/-- Method `Dy`: the height of the rectangle. -/
def Rectangle.Dy (r : Rectangle) : Int :=
  r.Max.Y - r.Min.Y

/-- The fields that `image.Gray`, `image.Alpha`, `image.NRGBA` and `image.RGBA` share: the
pixel bytes, the stride between rows, and the bounds. -/
structure PixBuffer where
  Pix : List Nat
  Stride : Int
  Rect : Rectangle

/-- The result of `color.Color.RGBA()`: four `uint32` channels, alpha-premultiplied. -/
structure RGBA32 where
  r : Nat
  g : Nat
  b : Nat
  a : Nat

/-- An `image.Image` value by dynamic type: the four types `NewImage` has a case for, and any
other implementation, of which only the methods `Bounds` and `At(x, y).RGBA()` are used. -/
inductive Image where
  | Gray (i : PixBuffer)
  | Alpha (i : PixBuffer)
  | NRGBA (i : PixBuffer)
  | RGBA (i : PixBuffer)
  | Other (Bounds : Rectangle) (At : Int → Int → RGBA32)

/-- Method `Bounds` of an image. -/
def Image.Bounds : Image → Rectangle
  | .Gray i => i.Rect
  | .Alpha i => i.Rect
  | .NRGBA i => i.Rect
  | .RGBA i => i.Rect
  | .Other b _ => b

end image

/-- The pixel formats of the native library that `NewImage` names. -/
inductive VGImageFormat where
  | VG_lL_8
  | VG_A_8
  | VG_lRGBA_8888
  | VG_lRGBA_8888_PRE
  | VG_sABGR_8888_PRE
deriving DecidableEq, Repr

/-- The image quality constants of the native library that `NewImage` names. -/
inductive VGImageQuality where
  | VG_IMAGE_QUALITY_FASTER
deriving DecidableEq, Repr

/-- Type `Image`: a `VGImage` handle of the native library. -/
abbrev Image := Nat

/-- The handle `VG_INVALID_HANDLE` that `vgCreateImage` returns when it cannot allocate. -/
def VG_INVALID_HANDLE : Image := 0

/-- A call into the native image library, with its arguments. The data pointer of
`vgImageSubData` is recorded as the buffer it points to. -/
inductive VGCall where
  | vgCreateImage (format : VGImageFormat) (width height : Int) (quality : VGImageQuality)
  | vgImageSubData (image : Image) (data : List Nat) (dataStride : Int)
      (dataFormat : VGImageFormat) (x y width height : Int)
deriving DecidableEq, Repr

/-- What a run of `NewImage` does: the native calls made, in order, and what is returned:
`none` when the run does not return (it panics, or its loop never ends), `some none` for a nil
pointer, `some (some h)` for a pointer to an `Image` holding the handle `h`. -/
structure NewImageResult where
  calls : List VGCall
  ret : Option (Option Image)
deriving DecidableEq, Repr

/-- The inner loop of the default case of `NewImage`: for `x` from its current value up to
`maxX`, store the high bytes of the four channels of pixel `(x, y)` at `data[d]`, ...,
`data[d+3]`. -/
def convertRow (At : Int → Int → image.RGBA32) (maxX y x : Int) (data : List Nat) (d : Nat) :
    Option (List Nat × Nat) :=
  if x < maxX then
    (store data d (uint8 ((At x y).r >>> 8))).bind fun data1 =>
    (store data1 (d + 1) (uint8 ((At x y).g >>> 8))).bind fun data2 =>
    (store data2 (d + 2) (uint8 ((At x y).b >>> 8))).bind fun data3 =>
    (store data3 (d + 3) (uint8 ((At x y).a >>> 8))).bind fun data4 =>
    convertRow At maxX y (x + 1) data4 (d + 4)
  else some (data, d)
termination_by (maxX - x).toNat
decreasing_by omega

/-- The outer loop of the default case of `NewImage`: for `y` from its current value down to
`bounds.Min.Y`, convert row `y`; the decrement `y--` wraps. The first argument bounds the
number of times the loop test is evaluated; `none` is a panic in a row, or a run that has not
ended within that bound. -/
def convertRows (At : Int → Int → image.RGBA32) (bounds : image.Rectangle) :
    Nat → Int → List Nat → Nat → Option (List Nat × Nat)
  | 0, _, _, _ => none
  | tests + 1, y, data, d =>
    if y ≥ bounds.Min.Y then
      (convertRow At bounds.Max.X y bounds.Min.X data d).bind fun (data1, d1) =>
      convertRows At bounds tests (wrapInt (y - 1)) data1 d1
    else some (data, d)

/-- Function `NewImage`: create a new Image texture in video memory. The native function
`vgCreateImage` is a parameter: it gives the handle returned for the arguments of the call.
In each case the pointer `vg` comes from `new(Image)`, so it is `some` cell, and the test
`vg == nil` compares that pointer, not the handle stored in the cell. In the default case the
row loop is given `intValues` evaluations of its test: a loop that ends does so when `y` first
fails the test, within the 2^64 values `y` can take, so a run that has neither ended nor
panicked by then never ends. -/
def NewImage (vgCreateImage : VGImageFormat → Int → Int → VGImageQuality → Image)
    (im : image.Image) : NewImageResult :=
  let bounds := im.Bounds
  let width := int32 bounds.Dx
  let height := int32 bounds.Dy
  match im with
  | .Gray i =>
    let vg : Option Image :=
      some (vgCreateImage .VG_lL_8 width height .VG_IMAGE_QUALITY_FASTER)
    let calls := [VGCall.vgCreateImage .VG_lL_8 width height .VG_IMAGE_QUALITY_FASTER]
    match vg with
    | none => ⟨calls, some none⟩
    | some h =>
      match addrOfFirst i.Pix with
      | none => ⟨calls, none⟩
      | some p =>
        ⟨calls ++ [VGCall.vgImageSubData h p (int32 i.Stride) .VG_lL_8 0 0 width height],
          some vg⟩
  | .Alpha i =>
    let vg : Option Image :=
      some (vgCreateImage .VG_A_8 width height .VG_IMAGE_QUALITY_FASTER)
    let calls := [VGCall.vgCreateImage .VG_A_8 width height .VG_IMAGE_QUALITY_FASTER]
    match vg with
    | none => ⟨calls, some none⟩
    | some h =>
      match addrOfFirst i.Pix with
      | none => ⟨calls, none⟩
      | some p =>
        ⟨calls ++ [VGCall.vgImageSubData h p (int32 i.Stride) .VG_A_8 0 0 width height],
          some vg⟩
  | .NRGBA i =>
    let vg : Option Image :=
      some (vgCreateImage .VG_lRGBA_8888 width height .VG_IMAGE_QUALITY_FASTER)
    let calls := [VGCall.vgCreateImage .VG_lRGBA_8888 width height .VG_IMAGE_QUALITY_FASTER]
    match vg with
    | none => ⟨calls, some none⟩
    | some h =>
      match addrOfFirst i.Pix with
      | none => ⟨calls, none⟩
      | some p =>
        ⟨calls ++ [VGCall.vgImageSubData h p (int32 i.Stride) .VG_lRGBA_8888 0 0 width height],
          some vg⟩
  | .RGBA i =>
    let vg : Option Image :=
      some (vgCreateImage .VG_lRGBA_8888_PRE width height .VG_IMAGE_QUALITY_FASTER)
    let calls := [VGCall.vgCreateImage .VG_lRGBA_8888_PRE width height .VG_IMAGE_QUALITY_FASTER]
    match vg with
    | none => ⟨calls, some none⟩
    | some h =>
      match addrOfFirst i.Pix with
      | none => ⟨calls, none⟩
      | some p =>
        ⟨calls ++ [VGCall.vgImageSubData h p (int32 i.Stride) .VG_lRGBA_8888_PRE 0 0 width
          height], some vg⟩
  | .Other _ At =>
    match (make 0 (int32 (width * height * 4))).bind fun data =>
        convertRows At bounds intValues (wrapInt (bounds.Max.Y - 1)) data 0 with
    | none => ⟨[], none⟩
    | some (data, _) =>
      let vg : Option Image :=
        some (vgCreateImage .VG_sABGR_8888_PRE width height .VG_IMAGE_QUALITY_FASTER)
      let calls := [VGCall.vgCreateImage .VG_sABGR_8888_PRE width height .VG_IMAGE_QUALITY_FASTER]
      match vg with
      | none => ⟨calls, some none⟩
      | some h =>
        match addrOfFirst data with
        | none => ⟨calls, none⟩
        | some p =>
          ⟨calls ++ [VGCall.vgImageSubData h p (int32 (4 * width)) .VG_sABGR_8888_PRE 0 0 width
            height], some vg⟩

/-- A Go `error` value that is not nil. -/
structure GoError where
  msg : String
deriving DecidableEq, Repr

/-- The surroundings of `OpenImage`: `os.Open` on a path gives a file or an error,
`image.Decode` on a file gives an image or an error, and the native `vgCreateImage`. -/
structure Env (File : Type) where
  Open : String → Except GoError File
  Decode : File → Except GoError image.Image
  vgCreateImage : VGImageFormat → Int → Int → VGImageQuality → Image

/-- What a run of `OpenImage` does: the native calls made, and the returned pair of pointer
and error (`none` when the run panics). -/
structure OpenImageResult where
  calls : List VGCall
  ret : Option (Option Image × Option GoError)
deriving DecidableEq, Repr

/-- Function `OpenImage`: create a new Image texture in video memory from a file path. -/
def OpenImage {File : Type} (env : Env File) (path : String) : OpenImageResult :=
  match env.Open path with
  | .error err => ⟨[], some (none, some err)⟩
  | .ok file =>
    match env.Decode file with
    | .error err => ⟨[], some (none, some err)⟩
    | .ok im =>
      match NewImage env.vgCreateImage im with
      | ⟨calls, none⟩ => ⟨calls, none⟩
      | ⟨calls, some none⟩ =>
        ⟨calls, some (none, some ⟨"Error while converting image to texture"⟩)⟩
      | ⟨calls, some (some vg)⟩ => ⟨calls, some (some vg, none)⟩

/-! ## Expected buffer contents

The layouts that the packing and conversion loops are compared with. -/

/-- The five values `[offset, red/255, green/255, blue/255, alpha]` of one gradient stop. -/
def packStop {F : Type} (ops : Float32 F) (s : Offcolor F) : List F :=
  [s.Offset, ops.div (ops.ofUint8 s.Red) ops.lit255, ops.div (ops.ofUint8 s.Green) ops.lit255,
    ops.div (ops.ofUint8 s.Blue) ops.lit255, s.Alpha]

/-- The groups of five values of the stops of a ramp, one after the other in input order. -/
def packStops {F : Type} (ops : Float32 F) : List (Offcolor F) → List F
  | [] => []
  | s :: rest => packStop ops s ++ packStops ops rest

/-- The four bytes of one converted pixel: the high bytes of its 16-bit channels. -/
def pixelBytes (c : image.RGBA32) : List Nat :=
  [uint8 (c.r >>> 8), uint8 (c.g >>> 8), uint8 (c.b >>> 8), uint8 (c.a >>> 8)]

/-- The bytes of `n` pixels of row `y`, from column `x` rightwards. -/
def rowBytes (At : Int → Int → image.RGBA32) (y : Int) : Int → Nat → List Nat
  | _, 0 => []
  | x, n + 1 => pixelBytes (At x y) ++ rowBytes At y (x + 1) n

/-- The bytes of `h` rows of `w` pixels starting at column `minX`, from row `y` downwards. -/
def rowsBytes (At : Int → Int → image.RGBA32) (minX : Int) (w : Nat) : Int → Nat → List Nat
  | _, 0 => []
  | y, h + 1 => rowBytes At y minX w ++ rowsBytes At minX w (y - 1) h

/-- An instance of the float operations for examples: exact rational arithmetic. -/
def exampleOps : Float32 ℚ :=
  ⟨0, fun n => (n : ℚ), fun a b => a / b, 255⟩

/-- The integer fits a signed 32-bit integer. -/
def fitsInt32 (n : Int) : Prop :=
  -2 ^ 31 ≤ n ∧ n < 2 ^ 31

/-- An example image of type `image.Gray`: one pixel of value 9. -/
def grayPixel : image.Image :=
  .Gray ⟨[9], 1, ⟨⟨0, 0⟩, ⟨1, 1⟩⟩⟩

/-- An example of surroundings in which the file opens and decodes to `grayPixel`, and the
native library cannot allocate: `vgCreateImage` returns `VG_INVALID_HANDLE`. -/
def allocationFails : Env Unit :=
  ⟨fun _ => .ok (), fun _ => .ok grayPixel, fun _ _ _ _ => VG_INVALID_HANDLE⟩

/-- An example of surroundings in which no file can be opened. -/
def noSuchFile : Env Unit :=
  ⟨fun _ => .error ⟨"no such file or directory"⟩, fun _ => .ok grayPixel, fun _ _ _ _ => 1⟩

/-- An example of surroundings in which files open and do not decode. -/
def notAnImage : Env Unit :=
  ⟨fun _ => .ok (), fun _ => .error ⟨"image: unknown format"⟩, fun _ _ _ _ => 1⟩

/-- An example of pixel contents for an image of another type: channels that depend on the
coordinates. -/
def exampleAt : Int → Int → image.RGBA32 :=
  fun x y => ⟨x.toNat * 256 + 7, y.toNat * 256 + 3, 0xffff, 0x1234⟩

/-- An example of bounds not anchored at the origin: columns 1..2, rows 2..4. -/
def exampleBounds : image.Rectangle :=
  ⟨⟨1, 2⟩, ⟨3, 5⟩⟩

/-! # Theorems -/

/-! # Properties of the colour lookup -/

set_option maxRecDepth 1000000 in
/-- Every entry of the table is found under its own name. -/
theorem colornames_lookup_entry : ∀ p ∈ colornames, colornames.lookup p.1 = some p.2 := by
  decide

set_option maxRecDepth 1000000 in
/-- No name of the table starts with `rgb(`. -/
theorem colornames_no_rgb_key : ∀ p ∈ colornames, HasPrefix p.1 "rgb(" = false := by
  decide

/-- A string starting with `rgb(` is spelled `r`, `g`, `b`, `(` and a remainder. -/
theorem data_of_HasPrefix_rgb (s : String) (h : HasPrefix s "rgb(" = true) :
    ∃ t, s.data = 'r' :: 'g' :: 'b' :: '(' :: t := by
  unfold HasPrefix at h
  rw [List.isPrefixOf_iff_prefix] at h
  obtain ⟨t, ht⟩ := h
  exact ⟨t, by rw [← ht]; rfl⟩

/-- A string starting with `rgb(` is not a name of the table. -/
theorem lookup_none_of_HasPrefix_rgb (s : String) (h : HasPrefix s "rgb(" = true) :
    colornames.lookup s = none := by
  rw [List.lookup_eq_none_iff]
  intro p hp
  have hk := colornames_no_rgb_key p hp
  simp only [bne_iff_ne, ne_eq]
  intro hsp
  rw [← hsp, h] at hk
  exact Bool.noConfusion hk

/-- A string that is no name of the table is not found in it. -/
theorem lookup_none_of_not_key (s : String) (h : s ∉ colornames.map Prod.fst) :
    colornames.lookup s = none := by
  rw [List.lookup_eq_none_iff]
  intro p hp
  simp only [bne_iff_ne, ne_eq]
  intro hsp
  exact h (List.mem_map.mpr ⟨p, hp, hsp.symm⟩)

/-! ## The scanner -/

/-- A decimal digit is not a space character. -/
theorem isSpace_of_isDecimalDigit (c : Char) (h : isDecimalDigit c = true) : isSpace c = false := by
  have h1 : 48 ≤ c.toNat ∧ c.toNat ≤ 57 := by
    simpa [isDecimalDigit] using h
  simp only [isSpace]
  have : ¬ c.toNat ≥ 65536 := by omega
  simp only [this, if_false]
  simp only [Bool.or_eq_false_iff, Bool.and_eq_false_iff, beq_eq_false_iff_ne, decide_eq_false_iff_not]
  omega

/-- What `SkipSpace` consumes is a run of blanks. -/
theorem SkipSpace_ok (input rest : List Char) (h : SkipSpace input = .ok rest) :
    ∃ sp, input = sp ++ rest ∧ ∀ c ∈ sp, isBlank c = true := by
  induction input with
  | nil =>
    simp only [SkipSpace, Except.ok.injEq] at h
    exact ⟨[], by simp [← h], by simp⟩
  | cons r t ih =>
    unfold SkipSpace at h
    split at h
    · rename_i hc
      obtain ⟨sp, hsp, hb⟩ := ih h
      refine ⟨r :: sp, by simp [hsp], ?_⟩
      intro c hcm
      rcases List.mem_cons.mp hcm with rfl | hcm
      · rw [hc.1]; decide
      · exact hb c hcm
    · split at h
      · exact Except.noConfusion h
      · rename_i hnl
        split at h
        · simp only [Except.ok.injEq] at h
          exact ⟨[], by simp [← h], by simp⟩
        · rename_i hs
          obtain ⟨sp, hsp, hb⟩ := ih h
          refine ⟨r :: sp, by simp [hsp], ?_⟩
          intro c hcm
          rcases List.mem_cons.mp hcm with rfl | hcm
          · simp only [isBlank, Bool.and_eq_true, bne_iff_ne, ne_eq]
            exact ⟨by simpa using hs, hnl⟩
          · exact hb c hcm

/-- A run of blanks in front of a character that is not a space is skipped, and only it. -/
theorem SkipSpace_blanks (sp : List Char) (hb : ∀ c ∈ sp, isBlank c = true) (x : Char)
    (t : List Char) (hx : isSpace x = false) : SkipSpace (sp ++ x :: t) = .ok (x :: t) := by
  induction sp with
  | nil =>
    have h1 : x ≠ '\r' := by rintro rfl; exact absurd hx (by decide)
    have h2 : x ≠ '\n' := by rintro rfl; exact absurd hx (by decide)
    simp [SkipSpace, h1, h2, hx]
  | cons r sp ih =>
    have hr := hb r (List.mem_cons_self _ _)
    have ih1 := ih (fun c hc => hb c (List.mem_cons_of_mem _ hc))
    simp only [isBlank, Bool.and_eq_true, bne_iff_ne, ne_eq] at hr
    simp only [List.cons_append]
    unfold SkipSpace
    split
    · exact ih1
    · simp [hr.1, hr.2, ih1]

/-- What `scanNumber` returns is a non-empty run of digits and the text after it. -/
theorem scanNumber_ok (input tok rest : List Char) (h : scanNumber input = .ok (tok, rest)) :
    input = tok ++ rest ∧ tok ≠ [] ∧ ∀ c ∈ tok, isDecimalDigit c = true := by
  cases input with
  | nil => simp [scanNumber] at h
  | cons r t =>
    by_cases hr : isDecimalDigit r = true
    · simp only [scanNumber, hr, if_true, Except.ok.injEq, Prod.mk.injEq] at h
      obtain ⟨h1, h2⟩ := h
      subst h1 h2
      refine ⟨by simp, by simp, ?_⟩
      intro c hc
      rcases List.mem_cons.mp hc with rfl | hc
      · exact hr
      · exact List.mem_takeWhile_imp hc
    · simp [scanNumber, hr] at h

/-- A run of digits in front of a character that is no digit is the token of `scanNumber`. -/
theorem scanNumber_digits (d : List Char) (hd : d ≠ []) (hdig : ∀ c ∈ d, isDecimalDigit c = true)
    (x : Char) (t : List Char) (hx : isDecimalDigit x = false) :
    scanNumber (d ++ x :: t) = .ok (d, x :: t) := by
  cases d with
  | nil => exact absurd rfl hd
  | cons r d =>
    have hr := hdig r (List.mem_cons_self _ _)
    have hrest : ∀ c ∈ d, isDecimalDigit c = true := fun c hc => hdig c (List.mem_cons_of_mem _ hc)
    simp only [List.cons_append, scanNumber, hr, if_true]
    rw [List.takeWhile_append_of_pos hrest, List.dropWhile_append_of_pos hrest]
    simp [List.takeWhile_cons, List.dropWhile_cons, hx]

/-- What `scanUint(verb, 8)` returns: blanks, then a channel, then the remaining text. -/
theorem scanUint_ok (input rest : List Char) (v : Nat) (h : scanUint 8 input = .ok (v, rest)) :
    ∃ sp d, input = sp ++ (d ++ rest) ∧ (∀ c ∈ sp, isBlank c = true) ∧ IsChannel d v := by
  cases hs : SkipSpace input with
  | error e => simp [scanUint, hs] at h
  | ok input1 =>
    obtain ⟨sp, hsp, hb⟩ := SkipSpace_ok _ _ hs
    cases input1 with
    | nil => simp [scanUint, hs] at h
    | cons r t =>
      cases hn : scanNumber (r :: t) with
      | error e => simp [scanUint, hs, hn] at h
      | ok p =>
        obtain ⟨tok, rest1⟩ := p
        obtain ⟨h1, h2, h3⟩ := scanNumber_ok _ _ _ hn
        by_cases h64 : digitsValue tok < 2 ^ 64
        · have hP : ParseUint tok = .ok (digitsValue tok) := by
            unfold ParseUint
            rw [if_pos h64]
          by_cases hov : digitsValue tok % 2 ^ 8 ≠ digitsValue tok
          · simp only [scanUint, hs, hn, hP, if_pos hov] at h
            exact Except.noConfusion h
          · simp only [scanUint, hs, hn, hP, if_neg hov, Except.ok.injEq, Prod.mk.injEq] at h
            obtain ⟨hv, hr⟩ := h
            subst hv hr
            refine ⟨sp, tok, by rw [hsp, h1], hb, h2, h3, rfl, ?_⟩
            have hmod : digitsValue tok % 2 ^ 8 = digitsValue tok := not_not.mp hov
            have : digitsValue tok % 2 ^ 8 < 2 ^ 8 := Nat.mod_lt _ (by norm_num)
            have h256 : (2 : Nat) ^ 8 = 256 := by norm_num
            omega
        · have hP : ParseUint tok = .error .valueOutOfRange := by
            unfold ParseUint
            rw [if_neg h64]
          simp only [scanUint, hs, hn, hP] at h
          exact Except.noConfusion h

/-- Blanks, a channel and a following character that is no digit: `scanUint(verb, 8)` returns
the value of the channel and stops in front of that character. -/
theorem scanUint_channel (sp d : List Char) (v : Nat) (hb : ∀ c ∈ sp, isBlank c = true)
    (hd : IsChannel d v) (x : Char) (t : List Char) (hx : isDecimalDigit x = false) :
    scanUint 8 (sp ++ (d ++ x :: t)) = .ok (v, x :: t) := by
  obtain ⟨hne, hdig, hval, hle⟩ := hd
  cases d with
  | nil => exact absurd rfl hne
  | cons r d =>
    have hr := hdig r (List.mem_cons_self _ _)
    have hskip := SkipSpace_blanks sp hb r (d ++ x :: t) (isSpace_of_isDecimalDigit r hr)
    have hnum := scanNumber_digits (r :: d) hne hdig x t hx
    simp only [List.cons_append] at hnum hskip ⊢
    have h64 : v < 2 ^ 64 := by
      have : (255 : Nat) < 2 ^ 64 := by norm_num
      omega
    have hmod : ¬ (v % 2 ^ 8 ≠ v) := by
      have : (2 : Nat) ^ 8 = 256 := by norm_num
      rw [not_not]
      exact Nat.mod_eq_of_lt (by omega)
    unfold scanUint
    rw [hskip]
    simp only [hnum, ParseUint, hval, h64, if_true, hmod, if_false]

/-- What one `%d` item consumes: blanks, then a channel. -/
theorem scanOne_ok (input rest : List Char) (v : Nat) (h : scanOne input = .ok (v, rest)) :
    ∃ sp d, input = sp ++ (d ++ rest) ∧ (∀ c ∈ sp, isBlank c = true) ∧ IsChannel d v := by
  unfold scanOne at h
  split at h
  · exact Except.noConfusion h
  · rename_i input1 hs
    obtain ⟨sp1, hsp1, hb1⟩ := SkipSpace_ok _ _ hs
    obtain ⟨sp2, d, hsp2, hb2, hd⟩ := scanUint_ok _ _ _ h
    refine ⟨sp1 ++ sp2, d, by rw [hsp1, hsp2, List.append_assoc], ?_, hd⟩
    intro c hc
    rcases List.mem_append.mp hc with hc | hc
    · exact hb1 c hc
    · exact hb2 c hc

/-- One `%d` item on blanks, a channel and a following character that is no digit. -/
theorem scanOne_channel (sp d : List Char) (v : Nat) (hb : ∀ c ∈ sp, isBlank c = true)
    (hd : IsChannel d v) (x : Char) (t : List Char) (hx : isDecimalDigit x = false) :
    scanOne (sp ++ (d ++ x :: t)) = .ok (v, x :: t) := by
  obtain ⟨hne, hdig, hval, hle⟩ := hd
  cases d with
  | nil => exact absurd rfl hne
  | cons r d =>
    have hr := hdig r (List.mem_cons_self _ _)
    have hskip := SkipSpace_blanks sp hb r (d ++ x :: t) (isSpace_of_isDecimalDigit r hr)
    have hu := scanUint_channel [] (r :: d) v (by simp) ⟨hne, hdig, hval, hle⟩ x t hx
    simp only [List.cons_append, List.nil_append] at hu hskip ⊢
    unfold scanOne
    rw [hskip]
    exact hu

/-- The literal matcher `advance` succeeds exactly on its own character. -/
theorem advance_ok (fmtc : Char) (input rest : List Char) :
    advance fmtc input = .ok rest ↔ input = fmtc :: rest := by
  cases input with
  | nil => simp [advance]
  | cons c t =>
    by_cases hc : fmtc = c
    · simp [advance, hc]
    · simp only [advance, hc, if_false, List.cons.injEq]
      constructor
      · intro h
        exact Except.noConfusion h
      · intro h
        exact absurd h.1.symm hc

/-- When `Sscanf` stores three operands without error, the text has the shape `ScanForm` and
the operands are its three channel values. -/
theorem Sscanf_success (input : List Char) (c : RGB)
    (hn : (Sscanf input c).1 = 3) (he : (Sscanf input c).2.1 = none) :
    ∃ r g b, ScanForm input r g b ∧ (Sscanf input c).2.2 = ⟨r, g, b⟩ := by
  cases h1 : advance '(' input with
  | error e => simp [Sscanf, h1] at hn
  | ok s1 =>
    cases h2 : scanOne s1 with
    | error e => simp [Sscanf, h1, h2] at hn
    | ok p2 =>
      obtain ⟨r, s2⟩ := p2
      cases h3 : advance ',' s2 with
      | error e => simp [Sscanf, h1, h2, h3] at hn
      | ok s3 =>
        cases h4 : scanOne s3 with
        | error e => simp [Sscanf, h1, h2, h3, h4] at hn
        | ok p4 =>
          obtain ⟨g, s4⟩ := p4
          cases h5 : advance ',' s4 with
          | error e => simp [Sscanf, h1, h2, h3, h4, h5] at hn
          | ok s5 =>
            cases h6 : scanOne s5 with
            | error e => simp [Sscanf, h1, h2, h3, h4, h5, h6] at hn
            | ok p6 =>
              obtain ⟨b, s6⟩ := p6
              cases h7 : advance ')' s6 with
              | error e => simp [Sscanf, h1, h2, h3, h4, h5, h6, h7] at he
              | ok s7 =>
                obtain ⟨sp1, d1, e1, hb1, hd1⟩ := scanOne_ok _ _ _ h2
                obtain ⟨sp2, d2, e2, hb2, hd2⟩ := scanOne_ok _ _ _ h4
                obtain ⟨sp3, d3, e3, hb3, hd3⟩ := scanOne_ok _ _ _ h6
                have a1 := (advance_ok _ _ _).mp h1
                have a3 := (advance_ok _ _ _).mp h3
                have a5 := (advance_ok _ _ _).mp h5
                have a7 := (advance_ok _ _ _).mp h7
                refine ⟨r, g, b, ⟨sp1, d1, sp2, d2, sp3, d3, s7, ?_, hb1, hb2, hb3, hd1, hd2, hd3⟩, ?_⟩
                · rw [a1, e1, a3, e2, a5, e3, a7]
                · have hr : r % 256 = r := Nat.mod_eq_of_lt (by have := hd1.2.2.2; omega)
                  have hg : g % 256 = g := Nat.mod_eq_of_lt (by have := hd2.2.2.2; omega)
                  have hb : b % 256 = b := Nat.mod_eq_of_lt (by have := hd3.2.2.2; omega)
                  simp only [Sscanf, h1, h2, h3, h4, h5, h6, h7, hr, hg, hb]

/-- On text of the shape `ScanForm` the call `Sscanf` stores the three channel values and
reports no error. -/
theorem Sscanf_of_ScanForm (input : List Char) (c : RGB) (r g b : Nat)
    (h : ScanForm input r g b) : Sscanf input c = (3, none, ⟨r, g, b⟩) := by
  obtain ⟨sp1, d1, sp2, d2, sp3, d3, rest, hin, hb1, hb2, hb3, hd1, hd2, hd3⟩ := h
  have h2 := scanOne_channel sp1 d1 r hb1 hd1 ','
    (sp2 ++ (d2 ++ ',' :: (sp3 ++ (d3 ++ ')' :: rest)))) (by decide)
  have h4 := scanOne_channel sp2 d2 g hb2 hd2 ',' (sp3 ++ (d3 ++ ')' :: rest)) (by decide)
  have h6 := scanOne_channel sp3 d3 b hb3 hd3 ')' rest (by decide)
  have hr : r % 256 = r := Nat.mod_eq_of_lt (by have := hd1.2.2.2; omega)
  have hg : g % 256 = g := Nat.mod_eq_of_lt (by have := hd2.2.2.2; omega)
  have hb : b % 256 = b := Nat.mod_eq_of_lt (by have := hd3.2.2.2; omega)
  subst hin
  simp only [Sscanf, advance, if_true, h2, h4, h6, hr, hg, hb]

/-- A string of the shape `RgbForm` starts with `rgb(`. -/
theorem HasPrefix_of_RgbForm (s : String) (r g b : Nat) (h : RgbForm s r g b) :
    HasPrefix s "rgb(" = true := by
  obtain ⟨t, hs, sp1, d1, sp2, d2, sp3, d3, rest, hin, _⟩ := h
  unfold HasPrefix
  rw [hs, hin, List.isPrefixOf_iff_prefix]
  exact ⟨_, rfl⟩

/-- A string of the shape `RgbForm` resolves to its three channel values. -/
theorem colorlookup_of_RgbForm (s : String) (r g b : Nat) (h : RgbForm s r g b) :
    colorlookup s = ⟨r, g, b⟩ := by
  have hp := HasPrefix_of_RgbForm s r g b h
  have hl := lookup_none_of_HasPrefix_rgb s hp
  obtain ⟨t, hs, hf⟩ := h
  have hsc := Sscanf_of_ScanForm t ⟨0, 0, 0⟩ r g b hf
  have hd : s.data.drop 3 = t := by rw [hs]; rfl
  simp only [colorlookup, hl, hp, if_true, hd, hsc]
  simp

/-- A string that starts with `rgb(` and is not of the shape `RgbForm` resolves to black. -/
theorem colorlookup_black_of_not_RgbForm (s : String) (hp : HasPrefix s "rgb(" = true)
    (hn : ¬ ∃ r g b, RgbForm s r g b) : colorlookup s = ⟨0, 0, 0⟩ := by
  have hl := lookup_none_of_HasPrefix_rgb s hp
  obtain ⟨t, hs⟩ := data_of_HasPrefix_rgb s hp
  have hd : s.data.drop 3 = '(' :: t := by rw [hs]; rfl
  simp only [colorlookup, hl, hp, if_true, hd]
  by_cases h3 : (Sscanf ('(' :: t) ⟨0, 0, 0⟩).1 = 3
  · cases he : (Sscanf ('(' :: t) ⟨0, 0, 0⟩).2.1 with
    | none =>
      obtain ⟨r, g, b, hf, _⟩ := Sscanf_success _ _ h3 he
      exact absurd ⟨r, g, b, '(' :: t, hs, hf⟩ hn
    | some e => simp [he]
  · simp [h3]

set_option maxRecDepth 1000000 in
/-- The decimal numerals of the numbers up to 255 are non-empty runs of digits with the
number as value. -/
theorem toDigits_facts : ∀ m < 256, (Nat.toDigits 10 m ≠ []
    ∧ (∀ c ∈ Nat.toDigits 10 m, isDecimalDigit c = true)
    ∧ digitsValue (Nat.toDigits 10 m) = m) := by
  decide

/-- The decimal numeral of a number up to 255 is a channel with that value. -/
theorem IsChannel_toDigits (n : Nat) (h : n ≤ 255) : IsChannel (Nat.toDigits 10 n) n := by
  obtain ⟨h1, h2, h3⟩ := toDigits_facts n (by omega)
  exact ⟨h1, h2, h3, h⟩

/-- On a string of the shape `RgbForm` the scanner stores three operands without error. -/
theorem Sscanf_of_RgbForm (s : String) (r g b : Nat) (h : RgbForm s r g b) :
    Sscanf (s.data.drop 3) ⟨0, 0, 0⟩ = (3, none, ⟨r, g, b⟩) := by
  obtain ⟨t, hs, hf⟩ := h
  have hd : s.data.drop 3 = t := by rw [hs]; rfl
  rw [hd]
  exact Sscanf_of_ScanForm t ⟨0, 0, 0⟩ r g b hf

/-- The characters of `rgb(` r `,` g `,` b `)` written with decimal numerals. -/
theorem data_rgb_string (r g b : Nat) :
    ("rgb(" ++ toString r ++ "," ++ toString g ++ "," ++ toString b ++ ")").data
      = 'r' :: 'g' :: 'b' :: '(' :: ([] ++ (Nat.toDigits 10 r ++ ',' :: ([] ++ (Nat.toDigits 10 g
          ++ ',' :: ([] ++ (Nat.toDigits 10 b ++ ')' :: [])))))) := by
  simp only [String.data_append, List.nil_append, List.append_assoc]
  rfl

/-- A string with decimal numerals up to 255 in the three channels has the shape `RgbForm`. -/
theorem RgbForm_rgb_string (r g b : Nat) (hr : r ≤ 255) (hg : g ≤ 255) (hb : b ≤ 255) :
    RgbForm ("rgb(" ++ toString r ++ "," ++ toString g ++ "," ++ toString b ++ ")") r g b := by
  refine ⟨_, data_rgb_string r g b, [], Nat.toDigits 10 r, [], Nat.toDigits 10 g, [],
    Nat.toDigits 10 b, [], rfl, ?_, ?_, ?_, IsChannel_toDigits r hr, IsChannel_toDigits g hg,
    IsChannel_toDigits b hb⟩ <;> simp

/-! ## The claims about `colorlookup` -/

/-- C1: for every name that is a key of the table `colornames`, `colorlookup` returns exactly
the RGB triple the table records for that name (the table entry is found, so neither the black
fallback nor the `rgb(...)` scanner is reached); in particular `cornflowerblue` resolves to
(100,149,237). -/
theorem colorlookup_known_name :
    (∀ name c, (name, c) ∈ colornames →
      colornames.lookup name = some c ∧ colorlookup name = c)
    ∧ colorlookup "cornflowerblue" = ⟨100, 149, 237⟩ := by
  refine ⟨?_, by decide⟩
  intro name c h
  have hl := colornames_lookup_entry (name, c) h
  refine ⟨hl, ?_⟩
  simp only [colorlookup]
  simp only [] at hl
  rw [hl]

set_option maxRecDepth 100000 in
/-- Witness of C1 at the entry `cornflowerblue`. -/
theorem colorlookup_known_name_witness :
    ("cornflowerblue", (⟨100, 149, 237⟩ : RGB)) ∈ colornames
    ∧ colornames.lookup "cornflowerblue" = some ⟨100, 149, 237⟩
    ∧ colorlookup "cornflowerblue" = ⟨100, 149, 237⟩ :=
  ⟨by decide, colorlookup_known_name.1 "cornflowerblue" ⟨100, 149, 237⟩ (by decide)⟩

/-- C2: for all r, g, b in 0..255, `colorlookup` applied to `rgb(` r `,` g `,` b `)` written
with plain decimal numerals and no spaces returns the triple (r,g,b); in particular
`rgb(10,20,30)` resolves to (10,20,30). -/
theorem colorlookup_rgb_string :
    (∀ r g b : Nat, r ≤ 255 → g ≤ 255 → b ≤ 255 →
      colorlookup ("rgb(" ++ toString r ++ "," ++ toString g ++ "," ++ toString b ++ ")")
        = ⟨r, g, b⟩)
    ∧ colorlookup "rgb(10,20,30)" = ⟨10, 20, 30⟩ := by
  refine ⟨?_, by decide⟩
  intro r g b hr hg hb
  exact colorlookup_of_RgbForm _ r g b (RgbForm_rgb_string r g b hr hg hb)

/-- Witness of C2 at the channels 255, 0 and 7. -/
theorem colorlookup_rgb_string_witness :
    (255 : Nat) ≤ 255 ∧ (0 : Nat) ≤ 255 ∧ (7 : Nat) ≤ 255
    ∧ colorlookup ("rgb(" ++ toString 255 ++ "," ++ toString 0 ++ "," ++ toString 7 ++ ")")
        = ⟨255, 0, 7⟩ :=
  ⟨by decide, by decide, by decide,
    colorlookup_rgb_string.1 255 0 7 (by decide) (by decide) (by decide)⟩

/-- C3 as stated fails: `rgb(1,2,3)x` starts with `rgb(` and is not exactly
`rgb(` r `,` g `,` b `)` (text follows the closing parenthesis), and `rgb( 1,2,3)` is not
either (a blank precedes the first number), yet both resolve to (1,2,3), not to black. -/
theorem colorlookup_rgb_inexact_counterexample :
    (HasPrefix "rgb(1,2,3)x" "rgb(" = true ∧ ¬ ExactRgb "rgb(1,2,3)x"
      ∧ colorlookup "rgb(1,2,3)x" = ⟨1, 2, 3⟩ ∧ colorlookup "rgb(1,2,3)x" ≠ ⟨0, 0, 0⟩)
    ∧ (HasPrefix "rgb( 1,2,3)" "rgb(" = true ∧ ¬ ExactRgb "rgb( 1,2,3)"
      ∧ colorlookup "rgb( 1,2,3)" = ⟨1, 2, 3⟩ ∧ colorlookup "rgb( 1,2,3)" ≠ ⟨0, 0, 0⟩) := by
  refine ⟨⟨by decide, ?_, by decide, by decide⟩, ⟨by decide, ?_, by decide, by decide⟩⟩
  · rintro ⟨d1, d2, d3, r, g, b, -, -, -, hs⟩
    have h := congrArg (fun l => l.reverse.head?) hs
    simp at h
  · rintro ⟨d1, d2, d3, r, g, b, h1, -, -, hs⟩
    cases d1 with
    | nil => exact h1.1 rfl
    | cons x d1 =>
      have hx := h1.2.1 x (List.mem_cons_self _ _)
      have hd : "rgb( 1,2,3)".data = 'r' :: 'g' :: 'b' :: '(' :: ' ' :: '1' :: ",2,3)".data := rfl
      rw [hd] at hs
      simp only [List.cons_append, List.cons.injEq, true_and] at hs
      rw [← hs.1] at hx
      exact absurd hx (by decide)

/-- C3, amended: for every string that begins with `rgb(` and is not of the shape
`rgb(` B r `,` B g `,` B b `)` T, where each B is a possibly empty run of blanks other than the
newline, r, g and b are non-empty runs of decimal digits of value at most 255, and T is any
trailing text, `colorlookup` returns black (0,0,0); nothing the scanner stored before the
failure appears in the result. -/
theorem colorlookup_rgb_failure_black (s : String) (hp : HasPrefix s "rgb(" = true)
    (hn : ¬ ∃ r g b, RgbForm s r g b) : colorlookup s = ⟨0, 0, 0⟩ :=
  colorlookup_black_of_not_RgbForm s hp hn

/-- Witness of the amended C3 at `rgb(10,20,30` (closing parenthesis missing): the scanner has
stored 10, 20 and 30 when it fails, the result is black. -/
theorem colorlookup_rgb_failure_black_witness :
    HasPrefix "rgb(10,20,30" "rgb(" = true
    ∧ Sscanf ("rgb(10,20,30".data.drop 3) ⟨0, 0, 0⟩
        = (3, some ScanError.unexpectedEOF, ⟨10, 20, 30⟩)
    ∧ colorlookup "rgb(10,20,30" = ⟨0, 0, 0⟩ :=
  ⟨by decide, by decide,
    colorlookup_rgb_failure_black "rgb(10,20,30" (by decide)
      (fun ⟨r, g, b, h⟩ => by
        have h2 : (Sscanf ("rgb(10,20,30".data.drop 3) ⟨0, 0, 0⟩).2.1 = none := by
          rw [Sscanf_of_RgbForm _ r g b h]
        exact absurd h2 (by decide))⟩

/-- C4: lookup is by exact, case-sensitive match: every string that is not a key of the table
`colornames` and does not start with the four characters `rgb(` resolves to black (0,0,0);
so do `not-a-color`, `Red` and `RGB(1,2,3)`. -/
theorem colorlookup_unknown_black :
    (∀ s : String, s ∉ colornames.map Prod.fst → HasPrefix s "rgb(" = false →
      colorlookup s = ⟨0, 0, 0⟩)
    ∧ colorlookup "not-a-color" = ⟨0, 0, 0⟩
    ∧ colorlookup "Red" = ⟨0, 0, 0⟩
    ∧ colorlookup "RGB(1,2,3)" = ⟨0, 0, 0⟩ := by
  refine ⟨?_, by decide, by decide, by decide⟩
  intro s hk hp
  have hl := lookup_none_of_not_key s hk
  simp only [colorlookup, hl, hp]
  rfl

set_option maxRecDepth 100000 in
/-- Witness of C4 at `Red`, which is neither a key (the key is `red`) nor an `rgb(` string. -/
theorem colorlookup_unknown_black_witness :
    "Red" ∉ colornames.map Prod.fst ∧ "red" ∈ colornames.map Prod.fst
    ∧ HasPrefix "Red" "rgb(" = false ∧ colorlookup "Red" = ⟨0, 0, 0⟩ :=
  ⟨by decide, by decide, by decide,
    colorlookup_unknown_black.1 "Red" (by decide) (by decide)⟩

/-! # Properties of the packing helpers -/

/-- Storing at the position right after a known front part replaces the element there. -/
theorem store_at {α : Type} (pre post : List α) (x v : α) (k : Nat) (hk : k = pre.length) :
    store (pre ++ x :: post) k v = some (pre ++ v :: post) := by
  subst hk
  simp [store]

/-- A list with at least five elements starts with five elements. -/
theorem exists_five_of_length {α : Type} (l : List α) (h : 5 ≤ l.length) :
    ∃ a0 a1 a2 a3 a4 rest, l = a0 :: a1 :: a2 :: a3 :: a4 :: rest := by
  match l, h with
  | a0 :: a1 :: a2 :: a3 :: a4 :: rest, _ => exact ⟨a0, a1, a2, a3, a4, rest, rfl⟩

/-- The loop of `makeramp` from stop `i` on, run on a buffer whose first `5 i` positions are
`pre` and which has five positions left for each remaining stop: it does not panic, it keeps
`pre`, and it fills the rest with the packed remaining stops. -/
theorem makerampLoop_spec {F : Type} (ops : Float32 F) (r : List (Offcolor F)) :
    ∀ (n i : Nat) (pre post : List F), r.length - i = n → i ≤ r.length → post.length = 5 * n →
      makerampLoop ops r i (pre ++ post) pre.length
        = some (pre ++ packStops ops (r.drop i), pre.length + 5 * n) := by
  intro n
  induction n with
  | zero =>
    intro i pre post hn hi hpost
    have hi2 : ¬ i < r.length := by omega
    have hp : post = [] := List.eq_nil_of_length_eq_zero (by omega)
    have hdrop : r.drop i = [] := List.drop_eq_nil_of_le (by omega)
    rw [makerampLoop, dif_neg hi2, hp, hdrop]
    simp [packStops]
  | succ n ih =>
    intro i pre post hn hi hpost
    have hi2 : i < r.length := by omega
    obtain ⟨a0, a1, a2, a3, a4, rest, hrest⟩ := exists_five_of_length post (by omega)
    subst hrest
    have hdrop : r.drop i = r[i] :: r.drop (i + 1) := List.drop_eq_getElem_cons hi2
    have e0 := store_at pre (a1 :: a2 :: a3 :: a4 :: rest) a0 r[i].Offset pre.length rfl
    have e1 := store_at (pre ++ [r[i].Offset]) (a2 :: a3 :: a4 :: rest) a1
      (ops.div (ops.ofUint8 r[i].Red) ops.lit255) (pre.length + 1) (by simp)
    have e2 := store_at (pre ++ [r[i].Offset, ops.div (ops.ofUint8 r[i].Red) ops.lit255])
      (a3 :: a4 :: rest) a2 (ops.div (ops.ofUint8 r[i].Green) ops.lit255) (pre.length + 2)
      (by simp)
    have e3 := store_at (pre ++ [r[i].Offset, ops.div (ops.ofUint8 r[i].Red) ops.lit255,
      ops.div (ops.ofUint8 r[i].Green) ops.lit255]) (a4 :: rest) a3
      (ops.div (ops.ofUint8 r[i].Blue) ops.lit255) (pre.length + 3) (by simp)
    have e4 := store_at (pre ++ [r[i].Offset, ops.div (ops.ofUint8 r[i].Red) ops.lit255,
      ops.div (ops.ofUint8 r[i].Green) ops.lit255, ops.div (ops.ofUint8 r[i].Blue) ops.lit255])
      rest a4 r[i].Alpha (pre.length + 4) (by simp)
    have hih := ih (i + 1) (pre ++ packStop ops r[i]) rest (by omega) (by omega)
      (by simp only [List.length_cons] at hpost; omega)
    have hlen : (pre ++ packStop ops r[i]).length = pre.length + 5 := by simp [packStop]
    rw [hlen] at hih
    simp only [List.append_assoc, List.cons_append, List.nil_append] at e0 e1 e2 e3 e4
    rw [makerampLoop, dif_pos hi2]
    simp only [e0, e1, e2, e3, e4, Option.some_bind]
    have hshape : pre ++ r[i].Offset :: ops.div (ops.ofUint8 r[i].Red) ops.lit255
        :: ops.div (ops.ofUint8 r[i].Green) ops.lit255
        :: ops.div (ops.ofUint8 r[i].Blue) ops.lit255 :: r[i].Alpha :: rest
        = (pre ++ packStop ops r[i]) ++ rest := by simp [packStop]
    rw [hshape, hih, hdrop]
    simp only [packStops, List.append_assoc, Option.some.injEq, Prod.mk.injEq, true_and]
    omega

/-- The packed stops take five positions per stop. -/
theorem packStops_length {F : Type} (ops : Float32 F) (r : List (Offcolor F)) :
    (packStops ops r).length = 5 * r.length := by
  induction r with
  | nil => rfl
  | cons s rest ih =>
    simp only [packStops, List.length_append, ih, packStop, List.length_cons, List.length_nil]
    omega

/-- Position `5 i + k` of the packed stops is position `k` of the group of stop `i`. -/
theorem packStops_getElem {F : Type} (ops : Float32 F) (r : List (Offcolor F)) (i k : Nat)
    (hi : i < r.length) (hk : k < 5) :
    (packStops ops r)[5 * i + k]? = (packStop ops r[i])[k]? := by
  induction r generalizing i with
  | nil => simp at hi
  | cons s rest ih =>
    have hl : (packStop ops s).length = 5 := rfl
    cases i with
    | zero =>
      simp only [packStops, Nat.mul_zero, Nat.zero_add, List.getElem_cons_zero]
      rw [List.getElem?_append_left (by omega)]
    | succ i =>
      have hi2 : i < rest.length := by simpa using hi
      simp only [packStops, List.getElem_cons_succ]
      rw [List.getElem?_append_right (by omega)]
      have : 5 * (i + 1) + k - (packStop ops s).length = 5 * i + k := by omega
      rw [this]
      exact ih i hi2

/-- On a ramp with at least one stop `makeramp` returns the packed stops and `C.int(len(r))`. -/
theorem makeramp_eq {F : Type} (ops : Float32 F) (r : List (Offcolor F)) (hne : r ≠ []) :
    makeramp ops r = some (packStops ops r, int32 r.length) := by
  have hloop := makerampLoop_spec ops r r.length 0 [] (List.replicate (r.length * 5) ops.zero)
    (by omega) (by omega) (by simp; omega)
  simp only [List.nil_append, List.length_nil, List.drop_zero, Nat.zero_add] at hloop
  have hmake : make ops.zero ((r.length * 5 : Nat) : Int)
      = some (List.replicate (r.length * 5) ops.zero) := by
    unfold make
    rw [if_neg (by omega)]
    rfl
  have haddr : addrOfFirst (packStops ops r) = some (packStops ops r) := by
    cases r with
    | nil => exact absurd rfl hne
    | cons s rest => rfl
  simp only [makeramp]
  simp only [hmake, Option.some_bind, hloop, haddr]

/-- Conversion to `C.int` keeps a length below 2^31. -/
theorem int32_of_length (n : Nat) (h : n < 2 ^ 31) : int32 (n : Int) = (n : Int) := by
  unfold int32
  have h2 : (2 : Int) ^ 31 = 2147483648 := by norm_num
  have h3 : (2 : Int) ^ 32 = 4294967296 := by norm_num
  have h4 : (2 : Nat) ^ 31 = 2147483648 := by norm_num
  rw [h2, h3]
  rw [h4] at h
  omega

/-- C5 as stated fails: on a ramp of 2^31 stops the count returned alongside the buffer is
`C.int(2^31)`, that is -2^31, not the number of stops. -/
theorem makeramp_count_counterexample :
    (List.replicate 2147483648 (⟨⟨255, 0, 0⟩, 0, 1⟩ : Offcolor ℚ)).length = 2147483648
    ∧ (makeramp exampleOps (List.replicate 2147483648 ⟨⟨255, 0, 0⟩, 0, 1⟩)).map Prod.snd
        = some (-2147483648) := by
  have hl : (List.replicate 2147483648 (⟨⟨255, 0, 0⟩, 0, 1⟩ : Offcolor ℚ)).length = 2147483648 :=
    List.length_replicate _ _
  have hne : List.replicate 2147483648 (⟨⟨255, 0, 0⟩, 0, 1⟩ : Offcolor ℚ) ≠ [] := by
    intro h
    rw [h] at hl
    exact absurd hl (by decide)
  have h32 : int32 ((2147483648 : Nat) : Int) = -2147483648 := by decide
  refine ⟨hl, ?_⟩
  rw [makeramp_eq exampleOps _ hne, hl, Option.map_some', h32]

/-- C5, amended: for every non-empty sequence of N gradient stops, `makeramp` builds a buffer
of exactly 5N values in which, for every i < N, positions 5i..5i+4 hold
`[offset_i, red_i/255, green_i/255, blue_i/255, alpha_i]` of the i-th input stop, in input
order, with offset and alpha passed through unchanged; the count returned alongside the buffer
is `C.int(N)`, the number of stops reduced to a signed 32-bit integer, which is N (not 5N) for
every N below 2^31. -/
theorem makeramp_layout {F : Type} (ops : Float32 F) (r : List (Offcolor F)) (hne : r ≠ []) :
    ∃ cs, makeramp ops r = some (cs, int32 (r.length : Int))
      ∧ cs.length = 5 * r.length
      ∧ (∀ i (hi : i < r.length),
          cs[5 * i]? = some r[i].Offset
          ∧ cs[5 * i + 1]? = some (ops.div (ops.ofUint8 r[i].Red) ops.lit255)
          ∧ cs[5 * i + 2]? = some (ops.div (ops.ofUint8 r[i].Green) ops.lit255)
          ∧ cs[5 * i + 3]? = some (ops.div (ops.ofUint8 r[i].Blue) ops.lit255)
          ∧ cs[5 * i + 4]? = some r[i].Alpha)
      ∧ (r.length < 2 ^ 31 → int32 (r.length : Int) = (r.length : Int)) := by
  refine ⟨packStops ops r, makeramp_eq ops r hne, packStops_length ops r, ?_,
    int32_of_length r.length⟩
  intro i hi
  have h0 := packStops_getElem ops r i 0 hi (by omega)
  have h1 := packStops_getElem ops r i 1 hi (by omega)
  have h2 := packStops_getElem ops r i 2 hi (by omega)
  have h3 := packStops_getElem ops r i 3 hi (by omega)
  have h4 := packStops_getElem ops r i 4 hi (by omega)
  rw [Nat.add_zero] at h0
  exact ⟨h0, h1, h2, h3, h4⟩

/-- Witness of the amended C5 on a ramp of two stops, the second with an offset below the
first and an alpha above 1: both are passed through, and the count is 2. -/
theorem makeramp_layout_witness :
    ∃ cs, makeramp exampleOps [⟨⟨255, 0, 51⟩, 1, 1⟩, ⟨⟨0, 255, 0⟩, 0, 2⟩] = some (cs, 2)
      ∧ cs.length = 10
      ∧ cs[5]? = some 0 ∧ cs[7]? = some 1 ∧ cs[9]? = some 2 := by
  obtain ⟨cs, h1, h2, h3, h4⟩ :=
    makeramp_layout exampleOps [⟨⟨255, 0, 51⟩, 1, 1⟩, ⟨⟨0, 255, 0⟩, 0, 2⟩] (by simp)
  have h := h3 1 (by simp)
  have hc : int32 ((([⟨⟨255, 0, 51⟩, 1, 1⟩, ⟨⟨0, 255, 0⟩, 0, 2⟩] : List (Offcolor ℚ)).length
      : Nat) : Int) = 2 := h4 (by simp)
  rw [hc] at h1
  refine ⟨cs, h1, h2, h.1, ?_, h.2.2.2.2⟩
  rw [h.2.2.1]
  simp [exampleOps]

/-- C6: for coordinate slices x, y with `len(x) != len(y)`, `poly` returns nil pointers and the
point count 0, and `Polygon` and `Polyline` complete without failing and without issuing any
native draw call. -/
theorem poly_mismatch {F : Type} (ops : Float32 F) (x y : List F) (h : x.length ≠ y.length) :
    poly ops x y = some (none, none, 0)
    ∧ Polygon ops x y = some []
    ∧ Polyline ops x y = some [] := by
  have hp : poly ops x y = some (none, none, 0) := by
    simp only [poly]
    rw [if_pos h]
  refine ⟨hp, ?_, ?_⟩
  · simp only [Polygon, hp, Option.some_bind]
    rfl
  · simp only [Polyline, hp, Option.some_bind]
    rfl

/-- Witness of C6 on three abscissas and two ordinates. -/
theorem poly_mismatch_witness :
    ([1, 2, 3] : List ℚ).length ≠ ([4, 5] : List ℚ).length
    ∧ poly exampleOps [1, 2, 3] [4, 5] = some (none, none, 0)
    ∧ Polygon exampleOps [1, 2, 3] [4, 5] = some []
    ∧ Polyline exampleOps [1, 2, 3] [4, 5] = some [] :=
  ⟨by decide, poly_mismatch exampleOps [1, 2, 3] [4, 5] (by decide)⟩

/-! # Properties of the image conversion -/

/-- A list with at least four elements starts with four elements. -/
theorem exists_four_of_length {α : Type} (l : List α) (h : 4 ≤ l.length) :
    ∃ a0 a1 a2 a3 rest, l = a0 :: a1 :: a2 :: a3 :: rest := by
  match l, h with
  | a0 :: a1 :: a2 :: a3 :: rest, _ => exact ⟨a0, a1, a2, a3, rest, rfl⟩

/-- The bytes of `n` pixels are `4 n` bytes. -/
theorem rowBytes_length (At : Int → Int → image.RGBA32) (y : Int) (n : Nat) :
    ∀ x : Int, (rowBytes At y x n).length = 4 * n := by
  induction n with
  | zero => intro x; rfl
  | succ n ih =>
    intro x
    simp only [rowBytes, List.length_append, ih, pixelBytes, List.length_cons, List.length_nil]
    omega

/-- The bytes of `h` rows of `w` pixels are `4 w h` bytes. -/
theorem rowsBytes_length (At : Int → Int → image.RGBA32) (minX : Int) (w h : Nat) :
    ∀ y : Int, (rowsBytes At minX w y h).length = 4 * w * h := by
  induction h with
  | zero => intro y; rfl
  | succ h ih =>
    intro y
    simp only [rowsBytes, List.length_append, ih, rowBytes_length]
    rw [Nat.mul_succ]
    omega

/-- The inner loop from column `x` on, run on a buffer with front part `pre` and four
positions left for each remaining pixel of the row: it does not panic, it keeps `pre`, writes
the bytes of the remaining pixels after it and leaves the positions behind them alone. -/
theorem convertRow_spec (At : Int → Int → image.RGBA32) (maxX y : Int) :
    ∀ (n : Nat) (x : Int) (pre post : List Nat), (maxX - x).toNat = n → 4 * n ≤ post.length →
      convertRow At maxX y x (pre ++ post) pre.length
        = some (pre ++ (rowBytes At y x n ++ post.drop (4 * n)), pre.length + 4 * n) := by
  intro n
  induction n with
  | zero =>
    intro x pre post hn _
    have hx : ¬ x < maxX := by omega
    rw [convertRow, if_neg hx]
    simp [rowBytes]
  | succ n ih =>
    intro x pre post hn hpost
    have hx : x < maxX := by omega
    obtain ⟨a0, a1, a2, a3, rest, hrest⟩ := exists_four_of_length post (by omega)
    subst hrest
    have e0 := store_at pre (a1 :: a2 :: a3 :: rest) a0 (uint8 ((At x y).r >>> 8)) pre.length rfl
    have e1 := store_at (pre ++ [uint8 ((At x y).r >>> 8)]) (a2 :: a3 :: rest) a1
      (uint8 ((At x y).g >>> 8)) (pre.length + 1) (by simp)
    have e2 := store_at (pre ++ [uint8 ((At x y).r >>> 8), uint8 ((At x y).g >>> 8)])
      (a3 :: rest) a2 (uint8 ((At x y).b >>> 8)) (pre.length + 2) (by simp)
    have e3 := store_at (pre ++ [uint8 ((At x y).r >>> 8), uint8 ((At x y).g >>> 8),
      uint8 ((At x y).b >>> 8)]) rest a3 (uint8 ((At x y).a >>> 8)) (pre.length + 3) (by simp)
    have hih := ih (x + 1) (pre ++ pixelBytes (At x y)) rest (by omega)
      (by simp only [List.length_cons] at hpost; omega)
    have hlen : (pre ++ pixelBytes (At x y)).length = pre.length + 4 := by simp [pixelBytes]
    rw [hlen] at hih
    simp only [List.append_assoc, List.cons_append, List.nil_append] at e0 e1 e2 e3
    rw [convertRow, if_pos hx]
    simp only [e0, e1, e2, e3, Option.some_bind]
    have hshape : pre ++ uint8 ((At x y).r >>> 8) :: uint8 ((At x y).g >>> 8)
        :: uint8 ((At x y).b >>> 8) :: uint8 ((At x y).a >>> 8) :: rest
        = (pre ++ pixelBytes (At x y)) ++ rest := by simp [pixelBytes]
    rw [hshape, hih]
    have hdrop : (a0 :: a1 :: a2 :: a3 :: rest).drop (4 * (n + 1)) = rest.drop (4 * n) := by
      rw [show 4 * (n + 1) = 4 * n + 4 by omega]
      rfl
    rw [hdrop]
    simp only [rowBytes, List.append_assoc, Option.some.injEq, Prod.mk.injEq, true_and]
    omega

/-- An integer in the range of a Go `int` is not changed by wrapping. -/
theorem wrapInt_of_range (n : Int) (h1 : minInt ≤ n) (h2 : n ≤ maxInt) : wrapInt n = n := by
  unfold minInt at h1
  unfold maxInt at h2
  unfold wrapInt
  have e63 : (2 : Int) ^ 63 = 9223372036854775808 := by norm_num
  have e64 : (2 : Int) ^ 64 = 18446744073709551616 := by norm_num
  rw [e63] at h1 h2
  rw [e63, e64]
  omega

/-- The inner loop on a buffer that is full up to its end, with a pixel left to convert:
the first store is out of range. -/
theorem convertRow_full (At : Int → Int → image.RGBA32) (maxX y x : Int) (data : List Nat)
    (d : Nat) (hx : x < maxX) (hd : data.length ≤ d) : convertRow At maxX y x data d = none := by
  rw [convertRow, if_pos hx]
  have hs : store data d (uint8 ((At x y).r >>> 8)) = none := by
    unfold store
    rw [if_neg (by omega)]
  rw [hs]
  rfl

/-- The outer loop from row `y` downwards, with bounds whose `Min.Y` is above the least `int`,
run on a buffer with front part `pre` and room for the remaining rows, and allowed more tests
than there are rows left: it ends without panic, it keeps `pre`, writes the bytes of the
remaining rows after it and leaves the positions behind them alone. -/
theorem convertRows_spec (At : Int → Int → image.RGBA32) (bounds : image.Rectangle) (w : Nat)
    (hw : (bounds.Max.X - bounds.Min.X).toNat = w) (hmin : minInt < bounds.Min.Y) :
    ∀ (h tests : Nat) (y : Int) (pre post : List Nat), h < tests → y ≤ maxInt →
      (y + 1 - bounds.Min.Y).toNat = h → 4 * w * h ≤ post.length →
      convertRows At bounds tests y (pre ++ post) pre.length
        = some (pre ++ (rowsBytes At bounds.Min.X w y h ++ post.drop (4 * w * h)),
            pre.length + 4 * w * h) := by
  intro h
  induction h with
  | zero =>
    intro tests y pre post ht _ hh _
    have hy : ¬ y ≥ bounds.Min.Y := by omega
    cases tests with
    | zero => omega
    | succ tests =>
      rw [convertRows, if_neg hy]
      simp [rowsBytes]
  | succ h ih =>
    intro tests y pre post ht hymax hh hpost
    have hy : y ≥ bounds.Min.Y := by omega
    cases tests with
    | zero => omega
    | succ tests =>
      have hwrap : wrapInt (y - 1) = y - 1 := wrapInt_of_range (y - 1) (by omega) (by omega)
      have hmul : 4 * w * (h + 1) = 4 * w + 4 * w * h := by rw [Nat.mul_succ]; omega
      have hrow := convertRow_spec At bounds.Max.X y w bounds.Min.X pre post hw (by omega)
      have hih := ih tests (y - 1) (pre ++ rowBytes At y bounds.Min.X w) (post.drop (4 * w))
        (by omega) (by omega) (by omega) (by rw [List.length_drop]; omega)
      have hlen : (pre ++ rowBytes At y bounds.Min.X w).length = pre.length + 4 * w := by
        rw [List.length_append, rowBytes_length]
      rw [hlen] at hih
      rw [convertRows, if_pos hy, hrow]
      simp only [Option.some_bind]
      rw [hwrap, ← List.append_assoc, hih, List.drop_drop, hmul]
      simp only [rowsBytes, List.append_assoc, Option.some.injEq, Prod.mk.injEq, true_and]
      omega

/-- Byte `4 j + c` of the bytes of a row is byte `c` of its pixel `j`. -/
theorem rowBytes_getElem (At : Int → Int → image.RGBA32) (y : Int) (n : Nat) :
    ∀ (x : Int) (j c : Nat), j < n → c < 4 →
      (rowBytes At y x n)[4 * j + c]? = (pixelBytes (At (x + j) y))[c]? := by
  induction n with
  | zero => intro x j c hj; omega
  | succ n ih =>
    intro x j c hj hc
    have hl : (pixelBytes (At x y)).length = 4 := rfl
    cases j with
    | zero =>
      simp only [rowBytes, Nat.mul_zero, Nat.zero_add, Nat.cast_zero, Int.add_zero]
      rw [List.getElem?_append_left (by omega)]
    | succ j =>
      simp only [rowBytes]
      rw [List.getElem?_append_right (by omega)]
      have : 4 * (j + 1) + c - (pixelBytes (At x y)).length = 4 * j + c := by omega
      rw [this, ih (x + 1) j c (by omega) hc]
      have : x + 1 + (j : Int) = x + ((j + 1 : Nat) : Int) := by push_cast; omega
      rw [this]

/-- Byte `4 (k w + j) + c` of the bytes of the rows is byte `c` of pixel `j` of the row `k`
rows below the first. -/
theorem rowsBytes_getElem (At : Int → Int → image.RGBA32) (minX : Int) (w h : Nat) :
    ∀ (y : Int) (k j c : Nat), k < h → j < w → c < 4 →
      (rowsBytes At minX w y h)[4 * (k * w + j) + c]?
        = (pixelBytes (At (minX + j) (y - k)))[c]? := by
  induction h with
  | zero => intro y k j c hk; omega
  | succ h ih =>
    intro y k j c hk hj hc
    have hl : (rowBytes At y minX w).length = 4 * w := rowBytes_length At y w minX
    cases k with
    | zero =>
      simp only [rowsBytes, Nat.zero_mul, Nat.zero_add, Nat.cast_zero, Int.sub_zero]
      rw [List.getElem?_append_left (by omega)]
      exact rowBytes_getElem At y w minX j c hj hc
    | succ k =>
      simp only [rowsBytes]
      have hkw : (k + 1) * w = k * w + w := by rw [Nat.add_mul, Nat.one_mul]
      have hidx : 4 * ((k + 1) * w + j) + c = 4 * w + (4 * (k * w + j) + c) := by
        rw [hkw]; omega
      rw [hidx, List.getElem?_append_right (by rw [hl]; exact Nat.le_add_right _ _)]
      have : 4 * w + (4 * (k * w + j) + c) - (rowBytes At y minX w).length
          = 4 * (k * w + j) + c := by omega
      rw [this, ih (y - 1) k j c (by omega) hj hc]
      have : y - 1 - (k : Int) = y - ((k + 1 : Nat) : Int) := by push_cast; omega
      rw [this]

/-- Conversion to a signed 32-bit integer keeps an integer that fits. -/
theorem int32_of_fits (n : Int) (h : fitsInt32 n) : int32 n = n := by
  unfold fitsInt32 at h
  unfold int32
  have h2 : (2 : Int) ^ 31 = 2147483648 := by norm_num
  have h3 : (2 : Int) ^ 32 = 4294967296 := by norm_num
  rw [h2] at h
  rw [h2, h3]
  omega

/-- The default case of `NewImage` on an image of `w ≥ 1` by `h ≥ 1` pixels with
`4 w h < 2^31`, whose `Min.Y` is above the least `int` and whose `Max.Y` is an `int`: the
conversion ends without panic, and one image is created and uploaded with the converted rows
as data. -/
theorem NewImage_other_eq (create : VGImageFormat → Int → Int → VGImageQuality → Image)
    (b : image.Rectangle) (At : Int → Int → image.RGBA32) (w h : Nat)
    (hw : b.Dx = (w : Int)) (hh : b.Dy = (h : Int)) (hw1 : 1 ≤ w) (hh1 : 1 ≤ h)
    (hsz : 4 * w * h < 2 ^ 31) (hmin : minInt < b.Min.Y) (hmax : b.Max.Y ≤ maxInt) :
    NewImage create (.Other b At)
      = ⟨[VGCall.vgCreateImage .VG_sABGR_8888_PRE w h .VG_IMAGE_QUALITY_FASTER,
          VGCall.vgImageSubData (create .VG_sABGR_8888_PRE w h .VG_IMAGE_QUALITY_FASTER)
            (rowsBytes At b.Min.X w (b.Max.Y - 1) h) ((4 * w : Nat) : Int) .VG_sABGR_8888_PRE
            0 0 w h],
        some (some (create .VG_sABGR_8888_PRE w h .VG_IMAGE_QUALITY_FASTER))⟩ := by
  have hwh : w ≤ w * h := Nat.le_mul_of_pos_right w hh1
  have hhw : h ≤ w * h := Nat.le_mul_of_pos_left h hw1
  have hassoc : 4 * w * h = 4 * (w * h) := Nat.mul_assoc 4 w h
  have hpos : 1 ≤ w * h := Nat.le_trans hw1 hwh
  have hW : int32 b.Dx = (w : Int) := by
    rw [hw]; exact int32_of_length w (by omega)
  have hH : int32 b.Dy = (h : Int) := by
    rw [hh]; exact int32_of_length h (by omega)
  have hN : int32 ((w : Int) * (h : Int) * 4) = ((4 * w * h : Nat) : Int) := by
    rw [show (w : Int) * (h : Int) * 4 = ((4 * w * h : Nat) : Int) by push_cast; ring]
    exact int32_of_length _ hsz
  have hS : int32 (4 * (w : Int)) = ((4 * w : Nat) : Int) := by
    rw [show 4 * (w : Int) = ((4 * w : Nat) : Int) by push_cast; ring]
    exact int32_of_length _ (by omega)
  have hmake : make (0 : Nat) ((4 * w * h : Nat) : Int)
      = some (List.replicate (4 * w * h) 0) := by
    unfold make
    rw [if_neg (by omega)]
    rfl
  have hDy : b.Dy = b.Max.Y - b.Min.Y := rfl
  have hy0 : wrapInt (b.Max.Y - 1) = b.Max.Y - 1 :=
    wrapInt_of_range (b.Max.Y - 1) (by omega) (by omega)
  have htests : h < intValues := by
    have e : intValues = 18446744073709551616 := by unfold intValues; norm_num
    rw [e]
    omega
  have hrows := convertRows_spec At b w (by unfold image.Rectangle.Dx at hw; omega) hmin h
    intValues (b.Max.Y - 1) [] (List.replicate (4 * w * h) 0) htests (by omega)
    (by omega) (by simp)
  have hdrop : (List.replicate (4 * w * h) (0 : Nat)).drop (4 * w * h) = [] :=
    List.drop_eq_nil_of_le (by simp)
  simp only [List.nil_append, List.length_nil, Nat.zero_add, hdrop, List.append_nil] at hrows
  have haddr : addrOfFirst (rowsBytes At b.Min.X w (b.Max.Y - 1) h)
      = some (rowsBytes At b.Min.X w (b.Max.Y - 1) h) := by
    have hl := rowsBytes_length At b.Min.X w h (b.Max.Y - 1)
    cases hd : rowsBytes At b.Min.X w (b.Max.Y - 1) h with
    | nil => rw [hd] at hl; simp only [List.length_nil] at hl; omega
    | cons x rest => rfl
  unfold NewImage
  simp only [image.Image.Bounds, hW, hH, hN, hS, hmake, Option.some_bind, hy0, hrows, haddr]
  rfl

/-- The row loop on the one-pixel image whose row is the least `int`, started at that row on
a buffer of four bytes: the pixel is converted, the decrement of `y` wraps to the greatest
`int`, the loop test holds again, and the next store is out of range. -/
theorem convertRows_minInt (At : Int → Int → image.RGBA32) (t : Nat) :
    convertRows At ⟨⟨0, minInt⟩, ⟨1, minInt + 1⟩⟩ (t + 2) minInt [0, 0, 0, 0] 0 = none := by
  have hy1 : wrapInt (minInt - 1) = maxInt := by decide
  have hle : maxInt ≥ minInt := by decide
  have hrow := convertRow_spec At 1 minInt 1 0 [] [0, 0, 0, 0] (by decide) (by decide)
  simp only [List.nil_append, List.length_nil, Nat.zero_add] at hrow
  have hfull := convertRow_full At 1 maxInt 0
    (rowBytes At minInt 0 1 ++ List.drop (4 * 1) [0, 0, 0, 0]) (4 * 1) (by decide)
    (by simp [rowBytes_length])
  rw [convertRows, if_pos (le_refl _), hrow]
  simp only [Option.some_bind]
  rw [hy1, convertRows, if_pos hle, hfull]
  rfl

/-- The default case of `NewImage` when the row loop does not complete: no native call is
made and the run does not return. -/
theorem NewImage_other_incomplete (create : VGImageFormat → Int → Int → VGImageQuality → Image)
    (b : image.Rectangle) (At : Int → Int → image.RGBA32) (data : List Nat) (y0 : Int)
    (hmake : make (0 : Nat) (int32 (int32 b.Dx * int32 b.Dy * 4)) = some data)
    (hy0 : wrapInt (b.Max.Y - 1) = y0)
    (hrows : convertRows At b intValues y0 data 0 = none) :
    NewImage create (.Other b At) = ⟨[], none⟩ := by
  unfold NewImage
  simp only [image.Image.Bounds, hmake, Option.some_bind, hy0, hrows]

/-- The default case of `NewImage` on the one-pixel image whose row is the least `int`: the
conversion panics and no native call is made. -/
theorem NewImage_other_minInt (create : VGImageFormat → Int → Int → VGImageQuality → Image)
    (At : Int → Int → image.RGBA32) :
    NewImage create (.Other ⟨⟨0, minInt⟩, ⟨1, minInt + 1⟩⟩ At) = ⟨[], none⟩ := by
  have htests : intValues = 18446744073709551614 + 2 := by
    unfold intValues
    norm_num
  have hrows : convertRows At ⟨⟨0, minInt⟩, ⟨1, minInt + 1⟩⟩ intValues minInt [0, 0, 0, 0] 0
      = none := by
    rw [htests]
    exact convertRows_minInt At 18446744073709551614
  exact NewImage_other_incomplete create ⟨⟨0, minInt⟩, ⟨1, minInt + 1⟩⟩ At [0, 0, 0, 0] minInt
    (by decide) (by decide) hrows

/-- Whatever `vgCreateImage` returns, `NewImage` does not return nil: it returns a pointer or
panics. -/
theorem NewImage_ret_ne_nil (create : VGImageFormat → Int → Int → VGImageQuality → Image)
    (im : image.Image) : (NewImage create im).ret ≠ some none := by
  cases im with
  | Gray i =>
    unfold NewImage
    simp only
    split <;> simp
  | Alpha i =>
    unfold NewImage
    simp only
    split <;> simp
  | NRGBA i =>
    unfold NewImage
    simp only
    split <;> simp
  | RGBA i =>
    unfold NewImage
    simp only
    split <;> simp
  | Other b At =>
    unfold NewImage
    simp only
    split
    · simp
    · split <;> simp

/-! ## The claims about image creation -/

/-- C7 fails on the code: when `vgCreateImage` yields `VG_INVALID_HANDLE`, `NewImage` uploads to
the invalid handle and returns a pointer to it, and `OpenImage` returns that pointer with a
nil error; `NewImage` never returns nil, and once the file opens and decodes `OpenImage`
either does not return or returns a pointer with a nil error, so its error for a failed
conversion is never produced. -/
theorem NewImage_invalid_handle_returned :
    NewImage allocationFails.vgCreateImage grayPixel
      = ⟨[VGCall.vgCreateImage .VG_lL_8 1 1 .VG_IMAGE_QUALITY_FASTER,
          VGCall.vgImageSubData VG_INVALID_HANDLE [9] 1 .VG_lL_8 0 0 1 1],
        some (some VG_INVALID_HANDLE)⟩
    ∧ (OpenImage allocationFails "gray.png").ret = some (some VG_INVALID_HANDLE, none)
    ∧ (∀ (create : VGImageFormat → Int → Int → VGImageQuality → Image) (im : image.Image),
        (NewImage create im).ret ≠ some none)
    ∧ (∀ (File : Type) (env : Env File) (path : String),
        (∃ e, env.Open path = .error e)
        ∨ (∃ f e, env.Open path = .ok f ∧ env.Decode f = .error e)
        ∨ (OpenImage env path).ret = none
        ∨ (∃ h, (OpenImage env path).ret = some (some h, none))) := by
  refine ⟨by decide, by decide, NewImage_ret_ne_nil, ?_⟩
  intro File env path
  cases ho : env.Open path with
  | error e => exact Or.inl ⟨e, rfl⟩
  | ok f =>
    cases hd : env.Decode f with
    | error e => exact Or.inr (Or.inl ⟨f, e, rfl, hd⟩)
    | ok im =>
      right
      right
      have hn := NewImage_ret_ne_nil env.vgCreateImage im
      unfold OpenImage
      simp only [ho, hd]
      split
      · exact Or.inl rfl
      · rename_i heq
        rw [heq] at hn
        exact absurd rfl hn
      · rename_i calls vg heq
        exact Or.inr ⟨vg, rfl⟩

/-- C8: if opening the file fails, or decoding its contents fails, `OpenImage` returns a nil
image pointer together with that error and makes no native call (no image is created or
uploaded); and whenever it returns a non-nil pointer the error is nil. -/
theorem OpenImage_failure :
    (∀ (File : Type) (env : Env File) (path : String) (e : GoError),
      env.Open path = .error e → OpenImage env path = ⟨[], some (none, some e)⟩)
    ∧ (∀ (File : Type) (env : Env File) (path : String) (f : File) (e : GoError),
      env.Open path = .ok f → env.Decode f = .error e →
        OpenImage env path = ⟨[], some (none, some e)⟩)
    ∧ (∀ (File : Type) (env : Env File) (path : String) (h : Image) (err : Option GoError),
      (OpenImage env path).ret = some (some h, err) → err = none) := by
  refine ⟨?_, ?_, ?_⟩
  · intro File env path e ho
    unfold OpenImage
    simp only [ho]
  · intro File env path f e ho hd
    unfold OpenImage
    simp only [ho, hd]
  · intro File env path h err hret
    unfold OpenImage at hret
    split at hret
    · simp at hret
    · split at hret
      · simp at hret
      · split at hret
        · simp at hret
        · simp at hret
        · simp only [Option.some.injEq, Prod.mk.injEq] at hret
          exact hret.2.symm

/-- Witness of C8: a path that does not open, a file that does not decode, and a pixel that
loads. -/
theorem OpenImage_failure_witness :
    OpenImage noSuchFile "missing.png"
      = ⟨[], some (none, some ⟨"no such file or directory"⟩)⟩
    ∧ OpenImage notAnImage "notes.txt" = ⟨[], some (none, some ⟨"image: unknown format"⟩)⟩
    ∧ (OpenImage allocationFails "gray.png").ret = some (some 0, none)
    ∧ (none : Option GoError) = none :=
  ⟨OpenImage_failure.1 Unit noSuchFile "missing.png" ⟨"no such file or directory"⟩ rfl,
    OpenImage_failure.2.1 Unit notAnImage "notes.txt" () ⟨"image: unknown format"⟩ rfl rfl,
    by decide,
    OpenImage_failure.2.2 Unit allocationFails "gray.png" 0 none (by decide)⟩

/-- A non-empty slice has a first element to point to. -/
theorem addrOfFirst_of_ne_nil {α : Type} (a : List α) (h : a ≠ []) : addrOfFirst a = some a := by
  cases a with
  | nil => exact absurd rfl h
  | cons x rest => rfl

/-- C9 as stated fails: on a gray image whose bounds are 2^31 wide the width passed to the
creation and upload calls is `int32(Dx)`, that is -2^31, not `Dx`. -/
theorem NewImage_width_counterexample :
    image.Rectangle.Dx ⟨⟨0, 0⟩, ⟨2147483648, 1⟩⟩ = 2147483648
    ∧ NewImage (fun _ _ _ _ => 7) (.Gray ⟨[9], 1, ⟨⟨0, 0⟩, ⟨2147483648, 1⟩⟩⟩)
      = ⟨[VGCall.vgCreateImage .VG_lL_8 (-2147483648) 1 .VG_IMAGE_QUALITY_FASTER,
          VGCall.vgImageSubData 7 [9] 1 .VG_lL_8 0 0 (-2147483648) 1], some (some 7)⟩ := by
  decide

/-- C9, amended: `NewImage` picks the pixel format from the source layout alone: `image.Gray`
gives `VG_lL_8`, `image.Alpha` gives `VG_A_8`, `image.NRGBA` gives `VG_lRGBA_8888`, `image.RGBA`
gives `VG_lRGBA_8888_PRE`, and every other layout gives `VG_sABGR_8888_PRE`; in every case the
format passed to the upload call is the format the image was created with, and the width and
height passed to both calls are `int32(Dx)` and `int32(Dy)` of the source bounds, which are
`Dx` and `Dy` whenever these fit 32 bits. For the four pixel buffer types the image is always
created, and it is uploaded unless `Pix` is empty (then the run panics after the creation);
for another layout the run makes no call, or the creation alone, or the creation and the
upload. -/
theorem NewImage_format (create : VGImageFormat → Int → Int → VGImageQuality → Image) :
    (∀ i : image.PixBuffer,
      NewImage create (.Gray i)
        = if i.Pix = [] then
            ⟨[VGCall.vgCreateImage .VG_lL_8 (int32 i.Rect.Dx) (int32 i.Rect.Dy) .VG_IMAGE_QUALITY_FASTER], none⟩
          else
            ⟨[VGCall.vgCreateImage .VG_lL_8 (int32 i.Rect.Dx) (int32 i.Rect.Dy) .VG_IMAGE_QUALITY_FASTER,
              VGCall.vgImageSubData
                (create .VG_lL_8 (int32 i.Rect.Dx) (int32 i.Rect.Dy) .VG_IMAGE_QUALITY_FASTER)
                i.Pix (int32 i.Stride) .VG_lL_8 0 0 (int32 i.Rect.Dx) (int32 i.Rect.Dy)],
            some (some (create .VG_lL_8 (int32 i.Rect.Dx) (int32 i.Rect.Dy) .VG_IMAGE_QUALITY_FASTER))⟩)
    ∧ (∀ i : image.PixBuffer,
      NewImage create (.Alpha i)
        = if i.Pix = [] then
            ⟨[VGCall.vgCreateImage .VG_A_8 (int32 i.Rect.Dx) (int32 i.Rect.Dy) .VG_IMAGE_QUALITY_FASTER], none⟩
          else
            ⟨[VGCall.vgCreateImage .VG_A_8 (int32 i.Rect.Dx) (int32 i.Rect.Dy) .VG_IMAGE_QUALITY_FASTER,
              VGCall.vgImageSubData
                (create .VG_A_8 (int32 i.Rect.Dx) (int32 i.Rect.Dy) .VG_IMAGE_QUALITY_FASTER)
                i.Pix (int32 i.Stride) .VG_A_8 0 0 (int32 i.Rect.Dx) (int32 i.Rect.Dy)],
            some (some (create .VG_A_8 (int32 i.Rect.Dx) (int32 i.Rect.Dy) .VG_IMAGE_QUALITY_FASTER))⟩)
    ∧ (∀ i : image.PixBuffer,
      NewImage create (.NRGBA i)
        = if i.Pix = [] then
            ⟨[VGCall.vgCreateImage .VG_lRGBA_8888 (int32 i.Rect.Dx) (int32 i.Rect.Dy) .VG_IMAGE_QUALITY_FASTER], none⟩
          else
            ⟨[VGCall.vgCreateImage .VG_lRGBA_8888 (int32 i.Rect.Dx) (int32 i.Rect.Dy) .VG_IMAGE_QUALITY_FASTER,
              VGCall.vgImageSubData
                (create .VG_lRGBA_8888 (int32 i.Rect.Dx) (int32 i.Rect.Dy) .VG_IMAGE_QUALITY_FASTER)
                i.Pix (int32 i.Stride) .VG_lRGBA_8888 0 0 (int32 i.Rect.Dx) (int32 i.Rect.Dy)],
            some (some (create .VG_lRGBA_8888 (int32 i.Rect.Dx) (int32 i.Rect.Dy) .VG_IMAGE_QUALITY_FASTER))⟩)
    ∧ (∀ i : image.PixBuffer,
      NewImage create (.RGBA i)
        = if i.Pix = [] then
            ⟨[VGCall.vgCreateImage .VG_lRGBA_8888_PRE (int32 i.Rect.Dx) (int32 i.Rect.Dy) .VG_IMAGE_QUALITY_FASTER], none⟩
          else
            ⟨[VGCall.vgCreateImage .VG_lRGBA_8888_PRE (int32 i.Rect.Dx) (int32 i.Rect.Dy) .VG_IMAGE_QUALITY_FASTER,
              VGCall.vgImageSubData
                (create .VG_lRGBA_8888_PRE (int32 i.Rect.Dx) (int32 i.Rect.Dy) .VG_IMAGE_QUALITY_FASTER)
                i.Pix (int32 i.Stride) .VG_lRGBA_8888_PRE 0 0 (int32 i.Rect.Dx) (int32 i.Rect.Dy)],
            some (some (create .VG_lRGBA_8888_PRE (int32 i.Rect.Dx) (int32 i.Rect.Dy) .VG_IMAGE_QUALITY_FASTER))⟩)
    ∧ (∀ (b : image.Rectangle) (At : Int → Int → image.RGBA32),
      (NewImage create (.Other b At)).calls = []
      ∨ (NewImage create (.Other b At)).calls
          = [VGCall.vgCreateImage .VG_sABGR_8888_PRE (int32 b.Dx) (int32 b.Dy) .VG_IMAGE_QUALITY_FASTER]
      ∨ ∃ data, (NewImage create (.Other b At)).calls
          = [VGCall.vgCreateImage .VG_sABGR_8888_PRE (int32 b.Dx) (int32 b.Dy) .VG_IMAGE_QUALITY_FASTER,
            VGCall.vgImageSubData
              (create .VG_sABGR_8888_PRE (int32 b.Dx) (int32 b.Dy) .VG_IMAGE_QUALITY_FASTER)
              data (int32 (4 * int32 b.Dx)) .VG_sABGR_8888_PRE 0 0 (int32 b.Dx) (int32 b.Dy)])
    ∧ (∀ n : Int, fitsInt32 n → int32 n = n) := by
  refine ⟨?_, ?_, ?_, ?_, ?_, int32_of_fits⟩
  · intro i
    unfold NewImage
    simp only [image.Image.Bounds]
    cases hP : i.Pix with
    | nil => simp [addrOfFirst]
    | cons x rest => simp [addrOfFirst]
  · intro i
    unfold NewImage
    simp only [image.Image.Bounds]
    cases hP : i.Pix with
    | nil => simp [addrOfFirst]
    | cons x rest => simp [addrOfFirst]
  · intro i
    unfold NewImage
    simp only [image.Image.Bounds]
    cases hP : i.Pix with
    | nil => simp [addrOfFirst]
    | cons x rest => simp [addrOfFirst]
  · intro i
    unfold NewImage
    simp only [image.Image.Bounds]
    cases hP : i.Pix with
    | nil => simp [addrOfFirst]
    | cons x rest => simp [addrOfFirst]
  · intro b At
    unfold NewImage
    simp only [image.Image.Bounds]
    split
    · exact Or.inl rfl
    · split
      · exact Or.inr (Or.inl rfl)
      · exact Or.inr (Or.inr ⟨_, rfl⟩)

/-- Witness of the amended C9: the width 1 fits 32 bits, and the one-pixel gray image is
created and uploaded as `VG_lL_8` with width and height 1. -/
theorem NewImage_format_witness :
    fitsInt32 1 ∧ int32 1 = 1
    ∧ NewImage (fun _ _ _ _ => 7) grayPixel
      = ⟨[VGCall.vgCreateImage .VG_lL_8 1 1 .VG_IMAGE_QUALITY_FASTER,
          VGCall.vgImageSubData 7 [9] 1 .VG_lL_8 0 0 1 1], some (some 7)⟩ :=
  ⟨by unfold fitsInt32; decide,
    (NewImage_format (fun _ _ _ _ => 7)).2.2.2.2.2 1 (by unfold fitsInt32; decide),
    (NewImage_format (fun _ _ _ _ => 7)).1 ⟨[9], 1, ⟨⟨0, 0⟩, ⟨1, 1⟩⟩⟩⟩

/-- C10 as stated fails: the one-pixel image with bounds [0,1) x [minInt, minInt+1) has
width 1, height 1 and 4 w h < 2^31, yet its conversion panics (after the only row the
decrement of `y` wraps and the loop goes on) and nothing is created or uploaded. -/
theorem NewImage_fallback_counterexample :
    1 ≤ image.Rectangle.Dx ⟨⟨0, minInt⟩, ⟨1, minInt + 1⟩⟩
    ∧ 1 ≤ image.Rectangle.Dy ⟨⟨0, minInt⟩, ⟨1, minInt + 1⟩⟩
    ∧ 4 * image.Rectangle.Dx ⟨⟨0, minInt⟩, ⟨1, minInt + 1⟩⟩
        * image.Rectangle.Dy ⟨⟨0, minInt⟩, ⟨1, minInt + 1⟩⟩ < 2 ^ 31
    ∧ NewImage (fun _ _ _ _ => 7) (.Other ⟨⟨0, minInt⟩, ⟨1, minInt + 1⟩⟩ exampleAt)
      = ⟨[], none⟩ :=
  ⟨by decide, by decide, by decide, NewImage_other_minInt (fun _ _ _ _ => 7) exampleAt⟩

/-- C10, amended: in the default case of `NewImage`, for every source image with bounds
[minX,maxX) x [minY,maxY) in which minY is above the least `int` value (and maxY is an `int`),
width w ≥ 1, height h ≥ 1 and 4 w h < 2^31, the conversion completes, the converted buffer has
exactly 4 w h bytes and is uploaded with stride 4 w, and for every pixel (x,y) inside the
bounds the four bytes at offset 4 ((maxY-1-y) w + (x-minX)) are (r>>8, g>>8, b>>8, a>>8)
truncated to 8 bits, where (r,g,b,a) are the channels of that pixel: every pixel is converted
exactly once and rows are written bottom row first. -/
theorem NewImage_fallback_conversion
    (create : VGImageFormat → Int → Int → VGImageQuality → Image)
    (b : image.Rectangle) (At : Int → Int → image.RGBA32)
    (hw : 1 ≤ b.Dx) (hh : 1 ≤ b.Dy) (hsz : 4 * b.Dx * b.Dy < 2 ^ 31)
    (hmin : minInt < b.Min.Y) (hmax : b.Max.Y ≤ maxInt) :
    ∃ data, NewImage create (.Other b At)
        = ⟨[VGCall.vgCreateImage .VG_sABGR_8888_PRE b.Dx b.Dy .VG_IMAGE_QUALITY_FASTER,
            VGCall.vgImageSubData
              (create .VG_sABGR_8888_PRE b.Dx b.Dy .VG_IMAGE_QUALITY_FASTER)
              data (4 * b.Dx) .VG_sABGR_8888_PRE 0 0 b.Dx b.Dy],
          some (some (create .VG_sABGR_8888_PRE b.Dx b.Dy .VG_IMAGE_QUALITY_FASTER))⟩
      ∧ (data.length : Int) = 4 * b.Dx * b.Dy
      ∧ ∀ x y : Int, b.Min.X ≤ x → x < b.Max.X → b.Min.Y ≤ y → y < b.Max.Y →
          data[(4 * ((b.Max.Y - 1 - y) * b.Dx + (x - b.Min.X))).toNat]?
              = some (uint8 ((At x y).r >>> 8))
          ∧ data[(4 * ((b.Max.Y - 1 - y) * b.Dx + (x - b.Min.X))).toNat + 1]?
              = some (uint8 ((At x y).g >>> 8))
          ∧ data[(4 * ((b.Max.Y - 1 - y) * b.Dx + (x - b.Min.X))).toNat + 2]?
              = some (uint8 ((At x y).b >>> 8))
          ∧ data[(4 * ((b.Max.Y - 1 - y) * b.Dx + (x - b.Min.X))).toNat + 3]?
              = some (uint8 ((At x y).a >>> 8)) := by
  have hw2 : b.Dx = ((b.Dx.toNat : Nat) : Int) := (Int.toNat_of_nonneg (by omega)).symm
  have hh2 : b.Dy = ((b.Dy.toNat : Nat) : Int) := (Int.toNat_of_nonneg (by omega)).symm
  have hsz2 : 4 * b.Dx.toNat * b.Dy.toNat < 2 ^ 31 := by
    have : ((4 * b.Dx.toNat * b.Dy.toNat : Nat) : Int) < 2 ^ 31 := by
      push_cast
      rw [← hw2, ← hh2]
      exact hsz
    exact_mod_cast this
  have h := NewImage_other_eq create b At b.Dx.toNat b.Dy.toNat hw2 hh2 (by omega) (by omega)
    hsz2 hmin hmax
  have h4 : ((4 * b.Dx.toNat : Nat) : Int) = 4 * b.Dx := by
    push_cast
    rw [← hw2]
  refine ⟨rowsBytes At b.Min.X b.Dx.toNat (b.Max.Y - 1) b.Dy.toNat, ?_, ?_, ?_⟩
  · rw [h, h4, ← hw2, ← hh2]
  · rw [rowsBytes_length]
    push_cast
    rw [← hw2, ← hh2]
  · intro x y hx1 hx2 hy1 hy2
    have hDx : b.Dx = b.Max.X - b.Min.X := rfl
    have hDy : b.Dy = b.Max.Y - b.Min.Y := rfl
    have hk : b.Max.Y - 1 - y = (((b.Max.Y - 1 - y).toNat : Nat) : Int) :=
      (Int.toNat_of_nonneg (by omega)).symm
    have hj : x - b.Min.X = (((x - b.Min.X).toNat : Nat) : Int) :=
      (Int.toNat_of_nonneg (by omega)).symm
    have hoff : (4 * ((b.Max.Y - 1 - y) * b.Dx + (x - b.Min.X))).toNat
        = 4 * ((b.Max.Y - 1 - y).toNat * b.Dx.toNat + (x - b.Min.X).toNat) := by
      have : 4 * ((b.Max.Y - 1 - y) * b.Dx + (x - b.Min.X))
          = ((4 * ((b.Max.Y - 1 - y).toNat * b.Dx.toNat + (x - b.Min.X).toNat) : Nat) : Int) := by
        push_cast
        rw [← hk, ← hj, ← hw2]
      rw [this, Int.toNat_ofNat]
    have hkh : (b.Max.Y - 1 - y).toNat < b.Dy.toNat := by omega
    have hjw : (x - b.Min.X).toNat < b.Dx.toNat := by omega
    have hxe : b.Min.X + (((x - b.Min.X).toNat : Nat) : Int) = x := by omega
    have hye : b.Max.Y - 1 - (((b.Max.Y - 1 - y).toNat : Nat) : Int) = y := by omega
    have g := fun c hc => rowsBytes_getElem At b.Min.X b.Dx.toNat b.Dy.toNat (b.Max.Y - 1)
      (b.Max.Y - 1 - y).toNat (x - b.Min.X).toNat c hkh hjw hc
    rw [hxe, hye] at g
    rw [hoff]
    have g0 := g 0 (by omega)
    rw [Nat.add_zero] at g0
    exact ⟨g0, g 1 (by omega), g 2 (by omega), g 3 (by omega)⟩

/-- Witness of the amended C10 on the example image with columns 1..2 and rows 2..4: the pixel
(2,4), of the row written first, comes second in the buffer, the pixel (1,2) comes fifth. -/
theorem NewImage_fallback_conversion_witness :
    ∃ data, NewImage (fun _ _ _ _ => 7) (.Other exampleBounds exampleAt)
        = ⟨[VGCall.vgCreateImage .VG_sABGR_8888_PRE 2 3 .VG_IMAGE_QUALITY_FASTER,
            VGCall.vgImageSubData 7 data 8 .VG_sABGR_8888_PRE 0 0 2 3], some (some 7)⟩
      ∧ (data.length : Int) = 24
      ∧ data[4]? = some 2 ∧ data[5]? = some 4 ∧ data[6]? = some 255 ∧ data[7]? = some 18
      ∧ data[16]? = some 1 ∧ data[17]? = some 2 := by
  obtain ⟨data, h1, h2, h3⟩ := NewImage_fallback_conversion (fun _ _ _ _ => 7) exampleBounds
    exampleAt (by decide) (by decide) (by decide) (by decide) (by decide)
  have a := h3 2 4 (by decide) (by decide) (by decide) (by decide)
  have c := h3 1 2 (by decide) (by decide) (by decide) (by decide)
  exact ⟨data, h1, h2, a.1, a.2.1, a.2.2.1, a.2.2.2, c.1, c.2.1⟩

/-! # Totality of the packing helpers -/

/-- On an empty ramp `makeramp` panics: the buffer is empty and `&cs[0]` is out of range. -/
theorem makeramp_nil {F : Type} (ops : Float32 F) : makeramp ops ([] : List (Offcolor F)) = none := by
  unfold makeramp
  have hmake : make ops.zero (((([] : List (Offcolor F)).length * 5 : Nat)) : Int)
      = some [] := rfl
  have hloop : makerampLoop ops ([] : List (Offcolor F)) 0 [] 0 = some ([], 0) := by
    rw [makerampLoop]
    rfl
  simp only [hmake, Option.some_bind, hloop]
  rfl

/-- The loop of `poly` from index `i` on, for slices of equal length, run on buffers whose
first `i` positions are `prex` and `prey` and which have one position left for each remaining
point: it does not panic, and it copies the remaining coordinates behind the front parts. -/
theorem polyLoop_spec {F : Type} (x y : List F) (hxy : x.length = y.length) :
    ∀ (n i : Nat) (prex postx prey posty : List F), x.length - i = n → i ≤ x.length →
      prex.length = i → prey.length = i → postx.length = n → posty.length = n →
      polyLoop x y i (prex ++ postx) (prey ++ posty)
        = some (prex ++ x.drop i, prey ++ y.drop i) := by
  intro n
  induction n with
  | zero =>
    intro i prex postx prey posty hn hi hpx hpy hqx hqy
    have hi2 : ¬ i < x.length := by omega
    have h1 : postx = [] := List.eq_nil_of_length_eq_zero hqx
    have h2 : posty = [] := List.eq_nil_of_length_eq_zero hqy
    have h3 : x.drop i = [] := List.drop_eq_nil_of_le (by omega)
    have h4 : y.drop i = [] := List.drop_eq_nil_of_le (by omega)
    rw [polyLoop, dif_neg hi2, h1, h2, h3, h4]
  | succ n ih =>
    intro i prex postx prey posty hn hi hpx hpy hqx hqy
    have hi2 : i < x.length := by omega
    have hi3 : i < y.length := by omega
    cases postx with
    | nil => simp at hqx
    | cons a postx =>
      cases posty with
      | nil => simp at hqy
      | cons b posty =>
        have ex := store_at prex postx a x[i] i hpx.symm
        have ey := store_at prey posty b y[i] i hpy.symm
        have hy : y[i]? = some y[i] := List.getElem?_eq_getElem hi3
        have hdx : x.drop i = x[i] :: x.drop (i + 1) := List.drop_eq_getElem_cons hi2
        have hdy : y.drop i = y[i] :: y.drop (i + 1) := List.drop_eq_getElem_cons hi3
        have hih := ih (i + 1) (prex ++ [x[i]]) postx (prey ++ [y[i]]) posty (by omega)
          (by omega) (by simp [hpx]) (by simp [hpy])
          (by simp only [List.length_cons] at hqx; omega)
          (by simp only [List.length_cons] at hqy; omega)
        simp only [List.append_assoc, List.cons_append, List.nil_append] at hih
        rw [polyLoop, dif_pos hi2]
        simp only [ex, hy, ey, Option.some_bind, hih, hdx, hdy]

/-- On two non-empty slices of equal length `poly` returns copies of both and
`C.VGint(len(x))`. -/
theorem poly_eq {F : Type} (ops : Float32 F) (x y : List F) (hxy : x.length = y.length)
    (hne : x ≠ []) : poly ops x y = some (some x, some y, int32 x.length) := by
  have hloop := polyLoop_spec x y hxy x.length 0 [] (List.replicate x.length ops.zero) []
    (List.replicate x.length ops.zero) (by omega) (by omega) rfl rfl (by simp) (by simp)
  simp only [List.nil_append, List.drop_zero] at hloop
  have hmake : make ops.zero ((x.length : Nat) : Int)
      = some (List.replicate x.length ops.zero) := by
    unfold make
    rw [if_neg (by omega)]
    rfl
  have hyne : y ≠ [] := by
    intro h
    rw [h] at hxy
    exact hne (List.eq_nil_of_length_eq_zero hxy)
  have hx := addrOfFirst_of_ne_nil x hne
  have hy := addrOfFirst_of_ne_nil y hyne
  unfold poly
  simp only [hxy, ne_eq, not_true_eq_false, if_false]
  rw [← hxy]
  simp only [hmake, Option.some_bind, hloop, hx, hy]

/-- On two empty slices `poly` panics: the buffers are empty and `&px[0]` is out of range. -/
theorem poly_nil {F : Type} (ops : Float32 F) : poly ops ([] : List F) [] = none := by
  have hloop : polyLoop ([] : List F) [] 0 [] [] = some ([], []) := by
    rw [polyLoop]
    rfl
  have hmake : make ops.zero (((([] : List F).length : Nat)) : Int) = some [] := rfl
  unfold poly
  simp only [ne_eq, not_true_eq_false, if_false, hmake, Option.some_bind, hloop]
  rfl

/-- C11: the two packing helpers take the address of element 0 of the buffer they build, so
they complete only on non-empty input: `makeramp` completes without an index out of range if
and only if the ramp has at least one stop, and `poly` on two slices of equal length completes
if and only if that length is at least 1; so `Polygon` and `Polyline` on two empty slices
fail instead of doing nothing, unlike on slices of different lengths. -/
theorem packing_total_iff_nonempty :
    (∀ (F : Type) (ops : Float32 F) (r : List (Offcolor F)),
      (makeramp ops r).isSome = true ↔ 1 ≤ r.length)
    ∧ (∀ (F : Type) (ops : Float32 F) (x y : List F), x.length = y.length →
      ((poly ops x y).isSome = true ↔ 1 ≤ x.length))
    ∧ (∀ (F : Type) (ops : Float32 F),
      Polygon ops ([] : List F) [] = none ∧ Polyline ops ([] : List F) [] = none) := by
  refine ⟨?_, ?_, ?_⟩
  · intro F ops r
    cases r with
    | nil =>
      rw [makeramp_nil]
      simp
    | cons s rest =>
      rw [makeramp_eq ops (s :: rest) (by simp)]
      simp
  · intro F ops x y hxy
    cases x with
    | nil =>
      have hy : y = [] := List.eq_nil_of_length_eq_zero hxy.symm
      rw [hy, poly_nil]
      simp
    | cons a rest =>
      rw [poly_eq ops (a :: rest) y hxy (by simp)]
      simp
  · intro F ops
    constructor
    · simp only [Polygon, poly_nil, Option.none_bind]
    · simp only [Polyline, poly_nil, Option.none_bind]

/-- Witness of C11 on two points: `poly` completes and returns both buffers and the count 2;
on no points it panics. -/
theorem packing_total_iff_nonempty_witness :
    ([1, 2] : List ℚ).length = ([3, 4] : List ℚ).length
    ∧ ((poly exampleOps [1, 2] [3, 4]).isSome = true ↔ 1 ≤ ([1, 2] : List ℚ).length)
    ∧ poly exampleOps [1, 2] [3, 4] = some (some [1, 2], some [3, 4], 2)
    ∧ poly exampleOps [] [] = none
    ∧ makeramp exampleOps [] = none :=
  ⟨rfl, packing_total_iff_nonempty.2.1 ℚ exampleOps [1, 2] [3, 4] rfl,
    poly_eq exampleOps [1, 2] [3, 4] rfl (by simp), poly_nil exampleOps,
    makeramp_nil exampleOps⟩
end OpenVG

